import Mathlib

/-!
Formal model of the statistics aggregation engine of the weightlifting
backend (`backend/src/services/stats_services.py`), together with proofs
about its behavior.  Python floats are modeled as rationals, Python
`datetime` values as a calendar-day ordinal paired with microseconds since
midnight, SQL `NULL` / Python `None` as `Option`, and raised exceptions as
the `Except` monad.  Python dictionaries preserve insertion order; they are
modeled by association lists built with `dictAppend` / `groupPairs` below.
-/

namespace WeightliftingStats

/- Batteries marks rational arithmetic irreducible; concrete evaluations in
the theorems below need it unfolded. -/
attribute [local semireducible] Rat.mul Rat.add Rat.sub Rat.inv

/-- Model of a Python `datetime`: `ord` is the proleptic Gregorian ordinal of
its calendar date (the value of `date.toordinal()`, day 1 = 0001-01-01) and
`micro` is the number of microseconds elapsed since midnight. -/
structure PyDateTime where
  ord : Int
  micro : Int
deriving Repr, DecidableEq

/-- Number of microseconds in one day. -/
def microPerDay : Int := 86400000000

/-- Microsecond count of `datetime.max.time()`, i.e. 23:59:59.999999. -/
def lastMicro : Int := 86399999999

/-- Total microsecond timestamp of a datetime.  For valid datetimes
(`0 ≤ micro < microPerDay`) comparing stamps agrees with the Python
datetime comparison. -/
def PyDateTime.stamp (t : PyDateTime) : Int := t.ord * microPerDay + t.micro

/-- Python `a <= b` on datetimes. -/
def PyDateTime.leb (a b : PyDateTime) : Bool := decide (a.stamp ≤ b.stamp)

/-- Python `a < b` on datetimes. -/
def PyDateTime.ltb (a b : PyDateTime) : Bool := decide (a.stamp < b.stamp)

/-- Python `(a - b).days`: a `timedelta` stores whole days obtained by
flooring, which is what Int division by a positive divisor computes. -/
def PyDateTime.daysDiff (a b : PyDateTime) : Int :=
  (a.stamp - b.stamp) / microPerDay

/-- Python `datetime - timedelta(days = n)`. -/
def PyDateTime.subDays (t : PyDateTime) (n : Int) : PyDateTime :=
  ⟨t.ord - n, t.micro⟩

/-- Python `datetime.min` (year 1, January 1, midnight). -/
def pyDateTimeMin : PyDateTime := ⟨1, 0⟩

/-- Python `datetime.max` (year 9999, December 31, 23:59:59.999999). -/
def pyDateTimeMax : PyDateTime := ⟨3652059, lastMicro⟩

/-- Python `datetime.hour`. -/
def PyDateTime.hour (t : PyDateTime) : Int := t.micro / 3600000000

/-- Python truthiness of an optional float: `None` and `0.0` are falsy. -/
def truthyQ : Option ℚ → Bool
  | none => false
  | some x => decide (x ≠ 0)

/-- Python truthiness of an optional int: `None` and `0` are falsy. -/
def truthyI : Option Int → Bool
  | none => false
  | some n => decide (n ≠ 0)

/-- Python truthiness of a string: the empty string is falsy. -/
def truthyS (s : String) : Bool := decide (s ≠ "")

/-- Python `max(a :: l, key)` for a key into a linear order: scans left to
right and replaces the current best only on a strictly greater key, hence
it keeps the first maximal element. -/
def pyMaxKey {A : Type} {K : Type} [LinearOrder K] (key : A → K) (a : A)
    (l : List A) : A :=
  l.foldl (fun acc y => if key acc < key y then y else acc) a

/-- Python `min(a :: l, key)`: keeps the first minimal element. -/
def pyMinKey {A : Type} {K : Type} [LinearOrder K] (key : A → K) (a : A)
    (l : List A) : A :=
  l.foldl (fun acc y => if key y < key acc then y else acc) a

/-- Insertion of an element into a sorted list, before the first element
it compares less-or-equal to. -/
def pyInsert {A : Type} (le : A → A → Bool) (a : A) : List A → List A
  | [] => [a]
  | b :: l => if le a b then a :: b :: l else b :: pyInsert le a l

/-- Stable sort under a boolean total preorder, modeling Python
`list.sort(key = ...)`: any two stable sorts agree, and this structural
insertion sort keeps the original relative order of elements the preorder
does not separate, exactly as the stable sort of Python does. -/
def pySort {A : Type} (le : A → A → Bool) : List A → List A
  | [] => []
  | b :: l => pyInsert le b (pySort le l)

/-- Keys of a list in order of first occurrence, without duplicates: the key
order of a Python dict built by insertion. -/
def firstDedup {K : Type} [DecidableEq K] : List K → List K
  | [] => []
  | k :: ks => k :: (firstDedup ks).filter (fun x => decide (x ≠ k))

/-- Appending a value to the entry of `k` in an insertion-ordered dict of
lists, creating the entry at the end when absent: models
`d.setdefault(k, []).append(v)` on a Python dict. -/
def dictAppend {K A : Type} [DecidableEq K] (k : K) (v : A) :
    List (K × List A) → List (K × List A)
  | [] => [(k, [v])]
  | (k', vs) :: rest =>
      if k' = k then (k', vs ++ [v]) :: rest
      else (k', vs) :: dictAppend k v rest

/-- Grouping a list by a key through an insertion-ordered dict, exactly as
the Python loops `if key not in d: d[key] = []; d[key].append(x)` do. -/
def groupPairs {K A : Type} [DecidableEq K] (key : A → K) (xs : List A) :
    List (K × List A) :=
  xs.foldl (fun d x => dictAppend (key x) x d) []

/-- Errors raised by the aggregation code: `HTTPException` 404, Python
`ZeroDivisionError`, and Python `ValueError` (min or max of an empty
sequence). -/
inductive PyErr where
  | notFound
  | zeroDivision
  | valueError
deriving Repr, DecidableEq

instance instDecidableEqExcept {E A : Type} [DecidableEq E] [DecidableEq A] :
    DecidableEq (Except E A) := fun x y =>
  match x, y with
  | Except.ok a, Except.ok b =>
      if h : a = b then isTrue (by rw [h])
      else isFalse (fun he => h (Except.ok.inj he))
  | Except.error e, Except.error f =>
      if h : e = f then isTrue (by rw [h])
      else isFalse (fun he => h (Except.error.inj he))
  | Except.ok _, Except.error _ => isFalse (fun he => Except.noConfusion he)
  | Except.error _, Except.ok _ => isFalse (fun he => Except.noConfusion he)

/-- Running an effectful record producer over a list while concatenating the
produced lists, aborting at the first raised error: models a Python `for`
loop that extends an accumulator list and may raise. -/
def collectE {A B : Type} (f : A → Except PyErr (List B)) :
    List A → Except PyErr (List B)
  | [] => .ok []
  | x :: xs =>
      match f x with
      | .error e => .error e
      | .ok l =>
          match collectE f xs with
          | .error e => .error e
          | .ok ls => .ok (l ++ ls)

/-- Model of `estimate_one_rep_max` (Brzycki formula).  Python evaluates
`weight * (36 / (37 - reps))` with true division and raises
`ZeroDivisionError` when `reps == 37`, modeled as `none`. -/
def estimate_one_rep_max (weight : ℚ) (reps : Int) : Option ℚ :=
  if reps = 0 then some 0
  else if reps = 1 then some weight
  else if reps = 37 then none
  else some (weight * (36 / (37 - (reps : ℚ))))

/-- Proleptic Gregorian ordinal of a calendar date, as `date.toordinal()`
computes it (0001-01-01 is day 1).  Uses the standard civil-calendar
conversion; all divisors are positive so Int division is floor division. -/
def ymdToOrd (y m d : Int) : Int :=
  let y2 := if m ≤ 2 then y - 1 else y
  let era := y2 / 400
  let yoe := y2 - era * 400
  let mp := (m + 9) % 12
  let doy := (153 * mp + 2) / 5 + d - 1
  let doe := yoe * 365 + yoe / 4 - yoe / 100 + doy
  era * 146097 + doe - 305

/-- Calendar date `(year, month, day)` of a proleptic Gregorian ordinal, as
`date.fromordinal` computes it. -/
def ordToYmd (o : Int) : Int × Int × Int :=
  let z := o + 305
  let era := z / 146097
  let doe := z - era * 146097
  let yoe := (doe - doe / 1460 + doe / 36524 - doe / 146096) / 365
  let y := yoe + era * 400
  let doy := doe - (365 * yoe + yoe / 4 - yoe / 100)
  let mp := (5 * doy + 2) / 153
  let d := doy - (153 * mp + 2) / 5 + 1
  let m := if mp < 10 then mp + 3 else mp - 9
  (if m ≤ 2 then y + 1 else y, m, d)

/-- Python `date.weekday()`: Monday is 0.  0001-01-01 (ordinal 1) is a
Monday. -/
def weekdayPy (o : Int) : Int := (o - 1) % 7

/-- Ordinal of the Monday starting the week of ordinal `o`, i.e. Python
`d - timedelta(days = d.weekday())`. -/
def weekStartOrd (o : Int) : Int := o - (o - 1) % 7

/-- Ordinal of the first day of the month of ordinal `o`, i.e. Python
`d.replace(day = 1)`. -/
def monthStartOrd (o : Int) : Int :=
  match ordToYmd o with
  | (y, m, _) => ymdToOrd y m 1

/-- Python `round(x)`: round half to even, returning an int. -/
def pyRoundInt (x : ℚ) : Int :=
  let f : Int := ⌊x⌋
  let r : ℚ := x - (f : ℚ)
  if r < 1 / 2 then f
  else if 1 / 2 < r then f + 1
  else if f % 2 = 0 then f else f + 1

/-- Python `round(x, 1)` on the idealized rational value. -/
def pyRound1 (x : ℚ) : ℚ := (pyRoundInt (x * 10) : ℚ) / 10

/-- Row of the `exercise` table (the columns the statistics code reads;
`target_muscle_group` is a non-null column). -/
structure Exercise where
  id : Nat
  name : String
  target_muscle_group : String
deriving Repr, DecidableEq

/-- Row of the `workout_session` table (columns read by the statistics
code; `started_at`, `completed_at` and `active_duration` are nullable). -/
structure WorkoutSession where
  id : Nat
  user_id : Nat
  started_at : Option PyDateTime
  completed_at : Option PyDateTime
  active_duration : Option Int
deriving Repr, DecidableEq

/-- Row of the `workout_session_exercise` table. -/
structure WorkoutSessionExercise where
  id : Nat
  workout_session_id : Nat
  exercise_id : Nat
deriving Repr, DecidableEq

/-- Row of the `workout_set` table.  `weight` is nullable; the code also
guards `reps_completed` against `None`, so it is modeled as optional. -/
structure WorkoutSet where
  id : Nat
  workout_session_exercise_id : Nat
  reps_completed : Option Int
  weight : Option ℚ
  is_warmup : Bool
deriving Repr, DecidableEq

/-- Snapshot of the four tables the aggregation engine reads.  Primary key
columns are assumed unique, as the database guarantees. -/
structure DB where
  exercises : List Exercise
  sessions : List WorkoutSession
  sessionExercises : List WorkoutSessionExercise
  sets : List WorkoutSet
deriving Repr, DecidableEq

/-- The `StatsTimeRangeFilter` schema: optional calendar dates (as
ordinals) and an optional period token. -/
structure StatsTimeRangeFilter where
  start_date : Option Int
  end_date : Option Int
  period : Option String
deriving Repr, DecidableEq

/-- The `today - timedelta(...)` start bound computed inside
`apply_date_filter` for a recognized period token. -/
def periodStartDT (now : PyDateTime) (p : String) : Option PyDateTime :=
  if p = "week" then some (now.subDays 7)
  else if p = "month" then some (now.subDays 30)
  else if p = "year" then some (now.subDays 365)
  else none

/-- The guard `filter.period and filter.period != "all" and not
(filter.start_date and filter.end_date)` of `apply_date_filter` (an empty
period string is falsy). -/
def periodActive (filt : StatsTimeRangeFilter) : Bool :=
  (match filt.period with
   | some p => truthyS p && decide (p ≠ "all")
   | none => false) &&
  !(filt.start_date.isSome && filt.end_date.isSome)

/-- Model of `apply_date_filter` as the predicate the filtered query
applies to the date column of a row.  A SQL comparison with a NULL column
value is not satisfied, so a row with a NULL date is excluded whenever any
bound is present. -/
def apply_date_filter (now : PyDateTime) (filt : StatsTimeRangeFilter)
    (col : Option PyDateTime) : Bool :=
  (match filt.start_date with
   | some d =>
       match col with
       | some t => PyDateTime.leb ⟨d, 0⟩ t
       | none => false
   | none => true) &&
  (match filt.end_date with
   | some d =>
       match col with
       | some t => PyDateTime.leb t ⟨d, lastMicro⟩
       | none => false
   | none => true) &&
  (if periodActive filt then
     match filt.period.bind (periodStartDT now) with
     | some s =>
         match col with
         | some t => PyDateTime.leb s t
         | none => false
     | none => true
   else true)

/-- The services call `apply_date_filter` only under `if filter:`; an
absent filter restricts nothing. -/
def applyFilter (now : PyDateTime) (filt : Option StatsTimeRangeFilter)
    (col : Option PyDateTime) : Bool :=
  match filt with
  | none => true
  | some f => apply_date_filter now f col

/-- Lookup of an exercise by primary key:
`db.query(Exercise).filter(Exercise.id == exercise_id).first()`. -/
def findExercise (db : DB) (exid : Nat) : Option Exercise :=
  db.exercises.find? (fun e => decide (e.id = exid))

/-- Lookup of a session exercise by primary key. -/
def findSE (db : DB) (seid : Nat) : Option WorkoutSessionExercise :=
  db.sessionExercises.find? (fun se => decide (se.id = seid))

/-- Lookup of a session by primary key. -/
def findSession (db : DB) (sid : Nat) : Option WorkoutSession :=
  db.sessions.find? (fun s => decide (s.id = sid))

/-- One row of the three-table join WorkoutSet ⋈ WorkoutSessionExercise ⋈
WorkoutSession used by the set-level queries. -/
structure SetRow where
  set : WorkoutSet
  se : WorkoutSessionExercise
  session : WorkoutSession
deriving Repr, DecidableEq

/-- The inner join of every set with its owning session exercise and
session (foreign keys reference unique primary keys, so each set joins
with at most one row of each parent table). -/
def setRows (db : DB) : List SetRow :=
  db.sets.filterMap (fun st =>
    (findSE db st.workout_session_exercise_id).bind (fun se =>
      (findSession db se.workout_session_id).map (fun s =>
        SetRow.mk st se s)))

/-- Base query of `get_exercise_progress` and `get_personal_records`: the
user's non-warmup sets of one exercise, date-filtered on the session
`started_at` column, in table order (before any ORDER BY). -/
def exerciseSetRowsUnsorted (db : DB) (user exid : Nat)
    (filt : Option StatsTimeRangeFilter) (now : PyDateTime) : List SetRow :=
  (setRows db).filter (fun r =>
    decide (r.session.user_id = user) && decide (r.se.exercise_id = exid) &&
    !r.set.is_warmup && applyFilter now filt r.session.started_at)

/-- Comparison used to model `order_by(WorkoutSession.started_at.desc())`:
descending by session start, rows with NULL start first (the Postgres
default for DESC). -/
def startDescLe (a b : SetRow) : Bool :=
  match a.session.started_at, b.session.started_at with
  | none, _ => true
  | some _, none => false
  | some x, some y => PyDateTime.leb y x

/-- The `exercise_sets` list of `get_exercise_progress`. -/
def progressRows (db : DB) (user exid : Nat)
    (filt : Option StatsTimeRangeFilter) (now : PyDateTime) : List SetRow :=
  pySort startDescLe (exerciseSetRowsUnsorted db user exid filt now)

/-- Key `s.weight if s.weight else 0` used by the max-weight scans. -/
def wKey (s : WorkoutSet) : ℚ := s.weight.getD 0

/-- Key `s.reps_completed if s.reps_completed else 0`. -/
def rKey (s : WorkoutSet) : Int := s.reps_completed.getD 0

/-- Volume term `weight * reps_completed` of one set (both fields read
after a truthiness guard, so the defaults are never the read value). -/
def setVolumeTerm (s : WorkoutSet) : ℚ :=
  s.weight.getD 0 * (s.reps_completed.getD 0 : ℚ)

/-- The guarded volume accumulation shared by every aggregator:
`if s.weight and s.reps_completed: total += s.weight * s.reps_completed`. -/
def pyVolumeSum (sets : List WorkoutSet) : ℚ :=
  ((sets.filter (fun s => truthyQ s.weight && truthyI s.reps_completed)).map
    setVolumeTerm).sum

/-- Element of `recent_sets`. -/
structure ExSetRecord where
  date : PyDateTime
  weight : ℚ
  reps : Int
  is_personal_record : Bool
deriving Repr, DecidableEq

/-- Element of `volume_over_time`. -/
structure VolumePoint where
  date : PyDateTime
  volume : ℚ
deriving Repr, DecidableEq

/-- Element of `max_weight_over_time`. -/
structure MaxPoint where
  date : PyDateTime
  weight : ℚ
  reps : Int
deriving Repr, DecidableEq

/-- The `ExerciseProgressStats` response schema. -/
structure ExerciseProgressStats where
  exercise_id : Nat
  exercise_name : String
  target_muscle_group : String
  personal_record_weight : Option ℚ
  personal_record_reps : Option Int
  personal_record_date : Option PyDateTime
  one_rep_max_estimated : Option ℚ
  recent_sets : List ExSetRecord
  volume_over_time : List VolumePoint
  max_weight_over_time : List MaxPoint
deriving Repr, DecidableEq

/-- Date shown for a session group: the session `started_at` recorded when
the group was created (groups only hold rows with a non-null start). -/
def sessionDate (g : List SetRow) : PyDateTime :=
  match g with
  | r :: _ => r.session.started_at.getD pyDateTimeMin
  | [] => pyDateTimeMin

/-- The `best_one_rep_max` loop of `get_exercise_progress` from a given
accumulator: folds `max` of the estimate over all qualifying sets, raising
`ZeroDivisionError` when a qualifying set has `reps_completed == 37`. -/
def bestOneRepMaxFrom (acc : ℚ) : List SetRow → Except PyErr ℚ
  | [] => Except.ok acc
  | r :: rows =>
      if truthyQ r.set.weight && truthyI r.set.reps_completed then
        match estimate_one_rep_max (r.set.weight.getD 0)
            (r.set.reps_completed.getD 0) with
        | some v => bestOneRepMaxFrom (max acc v) rows
        | none => Except.error PyErr.zeroDivision
      else bestOneRepMaxFrom acc rows

/-- The `best_one_rep_max` loop, started at 0 as the source does. -/
def bestOneRepMax (rows : List SetRow) : Except PyErr ℚ :=
  bestOneRepMaxFrom 0 rows

/-- Model of `get_exercise_progress`.  Mirrors the source line by line: the
404 check, the empty-result early return, the (later shadowed) global
max-weight and max-reps scans, grouping by session (dropping rows whose
session has no `started_at`), per-session volume and max points, the final
value of the loop variable `max_weight_set` after the per-session loop,
the best one-rep-max fold, and the three most recent sessions. -/
def get_exercise_progress (db : DB) (user exid : Nat)
    (filt : Option StatsTimeRangeFilter) (now : PyDateTime) :
    Except PyErr ExerciseProgressStats :=
  match findExercise db exid with
  | none => Except.error PyErr.notFound
  | some e =>
    match progressRows db user exid filt now with
    | [] =>
        Except.ok
          (ExerciseProgressStats.mk exid e.name e.target_muscle_group
            none none none none [] [] [])
    | r0 :: rs =>
        let globalMaxW : SetRow := pyMaxKey (fun r => wKey r.set) r0 rs
        let maxReps : SetRow := pyMaxKey (fun r => rKey r.set) r0 rs
        let rowsDated : List SetRow :=
          (r0 :: rs).filter (fun r => r.session.started_at.isSome)
        let groups : List (Nat × List SetRow) :=
          groupPairs (fun r => r.session.id) rowsDated
        let volumePts : List VolumePoint :=
          groups.filterMap (fun kg =>
            let v := pyVolumeSum (kg.2.map SetRow.set)
            if 0 < v then some (VolumePoint.mk (sessionDate kg.2) v)
            else none)
        let maxPts : List MaxPoint :=
          groups.filterMap (fun kg =>
            match kg.2 with
            | [] => none
            | q :: qs =>
                let m := pyMaxKey (fun r => wKey r.set) q qs
                if truthyQ m.set.weight && truthyI m.set.reps_completed then
                  some (MaxPoint.mk (sessionDate kg.2) (m.set.weight.getD 0)
                    (m.set.reps_completed.getD 0))
                else none)
        let fmws : SetRow :=
          match groups.getLast? with
          | some kg =>
              match kg.2 with
              | q :: qs => pyMaxKey (fun r => wKey r.set) q qs
              | [] => globalMaxW
          | none => globalMaxW
        match bestOneRepMax (r0 :: rs) with
        | Except.error er => Except.error er
        | Except.ok best =>
            let sortedGroups :=
              pySort (fun a b =>
                PyDateTime.leb (sessionDate b.2) (sessionDate a.2)) groups
            let recents :=
              (sortedGroups.take 3).flatMap (fun kg =>
                kg.2.filterMap (fun r =>
                  if truthyQ r.set.weight && truthyI r.set.reps_completed then
                    some (ExSetRecord.mk (sessionDate kg.2)
                      (r.set.weight.getD 0) (r.set.reps_completed.getD 0)
                      (decide (r.set.weight = fmws.set.weight) &&
                       decide (r.set.reps_completed = fmws.set.reps_completed)))
                  else none))
            Except.ok
              (ExerciseProgressStats.mk exid e.name e.target_muscle_group
                (if truthyQ fmws.set.weight then fmws.set.weight else none)
                (if truthyI maxReps.set.reps_completed then
                  maxReps.set.reps_completed else none)
                ((groups.find? (fun kg => kg.2.contains fmws)).map
                  (fun kg => sessionDate kg.2))
                (if 0 < best then some best else none)
                recents
                (pySort (fun a b => PyDateTime.leb a.date b.date) volumePts)
                (pySort (fun a b => PyDateTime.leb a.date b.date) maxPts))

/-- Element of the muscle-group response list. -/
structure MuscleGroupActivity where
  muscle_group : String
  volume : ℚ
  sets_count : Nat
  activity_level : ℚ
  last_trained : Option PyDateTime
  recovery_status : Option ℚ
deriving Repr, DecidableEq

/-- The `MuscleGroupStats` response schema. -/
structure MuscleGroupStats where
  date_range_start : PyDateTime
  date_range_end : PyDateTime
  muscle_groups : List MuscleGroupActivity
deriving Repr, DecidableEq

/-- Sets belonging to one session exercise, in table order. -/
def seSets (db : DB) (se : WorkoutSessionExercise) : List WorkoutSet :=
  db.sets.filter (fun st => decide (st.workout_session_exercise_id = se.id))

/-- Completed sessions of the user within the date filter: the base query
of `get_muscle_group_stats` and `get_workout_trends`. -/
def completedSessions (db : DB) (user : Nat)
    (filt : Option StatsTimeRangeFilter) (now : PyDateTime) :
    List WorkoutSession :=
  db.sessions.filter (fun s =>
    decide (s.user_id = user) && s.completed_at.isSome &&
    applyFilter now filt s.started_at)

/-- Session exercises whose session is in the given list (the
`workout_session_id.in_(session_ids)` query), in table order. -/
def sesOfSessions (db : DB) (sessions : List WorkoutSession) :
    List WorkoutSessionExercise :=
  db.sessionExercises.filter (fun se =>
    sessions.any (fun s => decide (s.id = se.workout_session_id)))

/-- Session exercises that survive every `continue` guard of the
muscle-group loop: exercise row found, at least one set, non-empty target
muscle group; paired with their exercise row. -/
def muscleQualSEs (db : DB) (sessions : List WorkoutSession) :
    List (WorkoutSessionExercise × Exercise) :=
  (sesOfSessions db sessions).filterMap (fun se =>
    match findExercise db se.exercise_id with
    | none => none
    | some e =>
        if (seSets db se).isEmpty then none
        else if truthyS e.target_muscle_group then some (se, e)
        else none)

/-- The `last_trained` tracking of the muscle-group loop: latest
`completed_at` among the sessions of the contributing session exercises
(strictly-greater updates, so Python keeps the first session reaching the
maximum, which only affects identity, not the value). -/
def lastTrainedFold (sessions : List WorkoutSession)
    (g : List (WorkoutSessionExercise × Exercise)) : Option PyDateTime :=
  g.foldl (fun acc p =>
    match sessions.find? (fun s => decide (s.id = p.1.workout_session_id)) with
    | some s =>
        match s.completed_at with
        | some c =>
            match acc with
            | none => some c
            | some a => if a.ltb c then some c else acc
        | none => acc
    | none => acc) none

/-- Python `min` over a possibly empty list of datetimes, raising
`ValueError` when empty. -/
def pyMinDatesE (l : List PyDateTime) : Except PyErr PyDateTime :=
  match l with
  | [] => Except.error PyErr.valueError
  | t :: ts => Except.ok (pyMinKey PyDateTime.stamp t ts)

/-- Python `max` over a possibly empty list of datetimes. -/
def pyMaxDatesE (l : List PyDateTime) : Except PyErr PyDateTime :=
  match l with
  | [] => Except.error PyErr.valueError
  | t :: ts => Except.ok (pyMaxKey PyDateTime.stamp t ts)

/-- Recovery model: `min(100, days_since_trained * 33.33)`; the decimal
float literal 33.33 is idealized as the rational 3333/100. -/
def recoveryStatus (now : PyDateTime) (lt : PyDateTime) : ℚ :=
  min 100 ((now.daysDiff lt : ℚ) * (3333 / 100))

/-- Python `max(values) if values else dflt` over rational values. -/
def pyMaxValsD (dflt : ℚ) : List ℚ → ℚ
  | [] => dflt
  | v :: vs => pyMaxKey (fun x : ℚ => x) v vs

/-- The per-muscle aggregation of `get_muscle_group_stats`, before
normalization: muscle groups in first-contribution order, each with total
volume, counted sets and last-trained time. -/
def muscleAggregates (db : DB) (sessions : List WorkoutSession) :
    List (String × ℚ × Nat × Option PyDateTime) :=
  (groupPairs (fun p => p.2.target_muscle_group)
      (muscleQualSEs db sessions)).map (fun kg =>
    (kg.1,
     (kg.2.map (fun p => pyVolumeSum (seSets db p.1))).sum,
     (kg.2.map (fun p =>
       ((seSets db p.1).filter (fun st =>
         truthyQ st.weight && truthyI st.reps_completed)).length)).sum,
     lastTrainedFold sessions kg.2))

/-- Model of `get_muscle_group_stats`.  The date-range bounds can raise
`ValueError` when every surviving session has a NULL `started_at`. -/
def get_muscle_group_stats (db : DB) (user : Nat)
    (filt : Option StatsTimeRangeFilter) (now : PyDateTime) :
    Except PyErr MuscleGroupStats :=
  let sessions := completedSessions db user filt now
  match sessions with
  | [] => Except.ok (MuscleGroupStats.mk now now [])
  | _ :: _ =>
      let aggs := muscleAggregates db sessions
      let maxVolume : ℚ := pyMaxValsD 1 (aggs.map (fun a => a.2.1))
      let activities : List MuscleGroupActivity :=
        aggs.map (fun a =>
          MuscleGroupActivity.mk a.1 a.2.1 a.2.2.1
            (if 0 < maxVolume then a.2.1 / maxVolume else 0)
            a.2.2.2
            (a.2.2.2.map (recoveryStatus now)))
      let sorted := pySort (fun x y =>
        decide (y.activity_level ≤ x.activity_level)) activities
      match pyMinDatesE (sessions.filterMap (fun s => s.started_at)) with
      | Except.error e => Except.error e
      | Except.ok ds =>
          match pyMaxDatesE (sessions.filterMap (fun s => s.completed_at)) with
          | Except.error e => Except.error e
          | Except.ok de => Except.ok (MuscleGroupStats.mk ds de sorted)

/-- One personal record of the Personal-Records response.  The response
also carries a freshly generated random UUID, which no consumer or claim
reads; it is omitted from the model. -/
structure PRRecord where
  exercise_id : Nat
  exercise_name : String
  target_muscle_group : String
  weight : ℚ
  reps : Int
  date : PyDateTime
  estimated_one_rep_max : ℚ
deriving Repr, DecidableEq

/-- The `PersonalRecordsResponse` schema. -/
structure PersonalRecordsResponse where
  records : List PRRecord
  total_count : Nat
deriving Repr, DecidableEq

/-- Exercises the user has performed: the DISTINCT join of exercises with
the user's session exercises, in exercise-table order. -/
def userExercises (db : DB) (user : Nat) : List Exercise :=
  db.exercises.filter (fun e =>
    db.sessionExercises.any (fun se =>
      decide (se.exercise_id = e.id) &&
      (match findSession db se.workout_session_id with
       | some s => decide (s.user_id = user)
       | none => false)))

/-- Sets entering the rep grouping of `get_personal_records` for one
exercise: the filtered join, dropping rows failing the guard
`if not set_data.reps_completed or not set_data.weight: continue`. -/
def prQualRows (db : DB) (user exid : Nat)
    (filt : Option StatsTimeRangeFilter) (now : PyDateTime) : List SetRow :=
  (exerciseSetRowsUnsorted db user exid filt now).filter (fun r =>
    truthyI r.set.reps_completed && truthyQ r.set.weight)

/-- The record produced for one rep-count group: the heaviest set of the
group, skipped entirely when its owning session has no `completed_at`.
The session and session-exercise rows the source re-fetches here are the
rows the join already carries (primary keys are unique). -/
def recordForGroup (e : Exercise) (reps : Int) (g : List SetRow) :
    Except PyErr (List PRRecord) :=
  match g with
  | [] => Except.ok []
  | q :: qs =>
      let pr := pyMaxKey (fun r => wKey r.set) q qs
      match pr.session.completed_at with
      | none => Except.ok []
      | some c =>
          match estimate_one_rep_max (pr.set.weight.getD 0) reps with
          | none => Except.error PyErr.zeroDivision
          | some est =>
              Except.ok
                [PRRecord.mk e.id e.name e.target_muscle_group
                  (pr.set.weight.getD 0) reps c est]

/-- Records contributed by one exercise, over its rep-count groups in
first-occurrence order. -/
def prRecordsFor (db : DB) (user : Nat) (filt : Option StatsTimeRangeFilter)
    (now : PyDateTime) (e : Exercise) : Except PyErr (List PRRecord) :=
  collectE (fun kg => recordForGroup e kg.1 kg.2)
    (groupPairs (fun r => rKey r.set) (prQualRows db user e.id filt now))

/-- The full `all_records` list of `get_personal_records`, before
sorting. -/
def prAllRecords (db : DB) (user : Nat) (filt : Option StatsTimeRangeFilter)
    (now : PyDateTime) : Except PyErr (List PRRecord) :=
  collectE (prRecordsFor db user filt now) (userExercises db user)

/-- The sort `all_records.sort(key = estimated_one_rep_max, reverse =
True)`: stable descending. -/
def prSortDesc (l : List PRRecord) : List PRRecord :=
  pySort (fun a b =>
    decide (b.estimated_one_rep_max ≤ a.estimated_one_rep_max)) l

/-- The sorted unpaginated record list. -/
def prSortedRecords (db : DB) (user : Nat)
    (filt : Option StatsTimeRangeFilter) (now : PyDateTime) :
    Except PyErr (List PRRecord) :=
  match prAllRecords db user filt now with
  | Except.error e => Except.error e
  | Except.ok recs => Except.ok (prSortDesc recs)

/-- Model of `get_personal_records` with its `page * limit` slice
pagination. -/
def get_personal_records (db : DB) (user : Nat)
    (filt : Option StatsTimeRangeFilter) (now : PyDateTime)
    (page limit : Nat) : Except PyErr PersonalRecordsResponse :=
  if (userExercises db user).isEmpty then
    Except.ok (PersonalRecordsResponse.mk [] 0)
  else
    match prSortedRecords db user filt now with
    | Except.error e => Except.error e
    | Except.ok sorted =>
        Except.ok (PersonalRecordsResponse.mk
          ((sorted.drop (page * limit)).take limit) sorted.length)

/-- The `WorkoutOverview` response schema. -/
structure WorkoutOverview where
  total_workouts : Nat
  total_duration : Int
  total_volume : ℚ
  avg_workout_duration : Int
  most_trained_muscle : String
  workout_consistency : ℚ
  most_recent_workout : Option PyDateTime
  busiest_day : Option String
  busiest_time : Option String
deriving Repr, DecidableEq

/-- The zero-valued overview returned on an empty history (optional fields
default to None in the schema). -/
def zeroOverview : WorkoutOverview :=
  WorkoutOverview.mk 0 0 0 0 "None" 0 none none none

/-- All sessions of the user within the date filter: the base query of
`get_workout_overview`. -/
def overviewSessions (db : DB) (user : Nat)
    (filt : Option StatsTimeRangeFilter) (now : PyDateTime) :
    List WorkoutSession :=
  db.sessions.filter (fun s =>
    decide (s.user_id = user) && applyFilter now filt s.started_at)

/-- Weekday name as `strftime("%A")` produces it. -/
def weekdayName (o : Int) : String :=
  let w := weekdayPy o
  if w = 0 then "Monday"
  else if w = 1 then "Tuesday"
  else if w = 2 then "Wednesday"
  else if w = 3 then "Thursday"
  else if w = 4 then "Friday"
  else if w = 5 then "Saturday"
  else "Sunday"

/-- The coarse time-of-day bucket of `get_workout_overview`. -/
def timeOfDayBucket (t : PyDateTime) : String :=
  let h := t.hour
  if 5 ≤ h ∧ h < 12 then "Morning"
  else if 12 ≤ h ∧ h < 17 then "Afternoon"
  else if 17 ≤ h ∧ h < 22 then "Evening"
  else "Night"

/-- Model of `get_workout_overview`. -/
def get_workout_overview (db : DB) (user : Nat)
    (filt : Option StatsTimeRangeFilter) (now : PyDateTime) :
    WorkoutOverview :=
  let sessions := overviewSessions db user filt now
  match sessions with
  | [] => zeroOverview
  | s0 :: srest =>
      match sessions.filter (fun s => s.completed_at.isSome) with
      | [] => zeroOverview
      | c0 :: crest =>
          let completed := c0 :: crest
          let total_workouts := completed.length
          let totalDur : ℚ :=
            (completed.map (fun s => (s.active_duration.getD 0 : ℚ) / 60)).sum
          let avgDur : ℚ :=
            if 0 < total_workouts then totalDur / total_workouts else 0
          let most_recent :=
            pyMaxKey (fun s => (s.started_at.getD pyDateTimeMin).stamp) s0 srest
          let ses := sesOfSessions db sessions
          let sets := db.sets.filter (fun st =>
            ses.any (fun se => decide (se.id = st.workout_session_exercise_id)))
          let total_volume := pyVolumeSum sets
          let contribs : List (String × ℚ) :=
            (sets.filter (fun st =>
              truthyQ st.weight && truthyI st.reps_completed)).filterMap
              (fun st =>
                match ses.find? (fun se =>
                    decide (se.id = st.workout_session_exercise_id)) with
                | none => none
                | some se =>
                    match findExercise db se.exercise_id with
                    | none => none
                    | some e =>
                        if truthyS e.target_muscle_group then
                          some (e.target_muscle_group, setVolumeTerm st)
                        else none)
          let volume_by_muscle : List (String × ℚ) :=
            (groupPairs Prod.fst contribs).map (fun kg =>
              (kg.1, (kg.2.map Prod.snd).sum))
          let most_trained :=
            match volume_by_muscle with
            | [] => "None"
            | k :: ks => (pyMaxKey Prod.snd k ks).1
          let consistency : ℚ :=
            if 2 ≤ sessions.length then
              let first :=
                pyMinKey (fun s => (s.started_at.getD pyDateTimeMax).stamp)
                  s0 srest
              let last :=
                pyMaxKey (fun s => (s.started_at.getD pyDateTimeMin).stamp)
                  s0 srest
              match first.started_at, last.started_at with
              | some fs, some ls =>
                  let days := ls.daysDiff fs
                  if 0 < days then
                    let weeks : ℚ := (days : ℚ) / 7
                    let wpw : ℚ :=
                      if 0 < weeks then (total_workouts : ℚ) / weeks else 0
                    min 100 (wpw / 3 * 100)
                  else 100
              | _, _ => 0
            else 0
          let started := sessions.filterMap (fun s => s.started_at)
          let busiest_day :=
            match groupPairs (fun t : PyDateTime => weekdayName t.ord)
                started with
            | [] => none
            | k :: ks => some (pyMaxKey (fun kg => kg.2.length) k ks).1
          let busiest_time :=
            match groupPairs timeOfDayBucket started with
            | [] => none
            | k :: ks => some (pyMaxKey (fun kg => kg.2.length) k ks).1
          WorkoutOverview.mk total_workouts (pyRoundInt totalDur)
            (pyRound1 total_volume) (pyRoundInt avgDur) most_trained
            (pyRound1 consistency) most_recent.completed_at busiest_day
            busiest_time

/-- Element of the trend series. -/
structure TrendPoint where
  date : PyDateTime
  value : ℚ
deriving Repr, DecidableEq

/-- The `WorkoutTrends` response schema. -/
structure WorkoutTrends where
  metric : String
  period : String
  data : List TrendPoint
deriving Repr, DecidableEq

/-- All sets of one session, through its session exercises, in table
order. -/
def sessionSets (db : DB) (s : WorkoutSession) : List WorkoutSet :=
  (db.sessionExercises.filter (fun se =>
    decide (se.workout_session_id = s.id))).flatMap (seSets db)

/-- Valid volume of one session, as the trend loops accumulate it. -/
def sessionVolume (db : DB) (s : WorkoutSession) : ℚ :=
  pyVolumeSum (sessionSets db s)

/-- Bucket key ordinal for a completed-at date under a period token. -/
def trendBucketKey (period : String) (t : PyDateTime) : Int :=
  if period = "daily" then t.ord
  else if period = "weekly" then weekStartOrd t.ord
  else monthStartOrd t.ord

/-- Value of one bucket under a metric token: summed session volume,
summed `active_duration` in minutes, or session count; an unrecognized
metric appends no point. -/
def bucketValue (db : DB) (metric : String) (gs : List WorkoutSession) :
    Option ℚ :=
  if metric = "volume" then some ((gs.map (sessionVolume db)).sum)
  else if metric = "duration" then
    some ((gs.map (fun s => (s.active_duration.getD 0 : ℚ))).sum / 60)
  else if metric = "frequency" then some ((gs.length : ℚ))
  else none

/-- Model of `get_workout_trends`.  The query keeps only completed
sessions, so the re-check `if not session.completed_at: continue` inside
each grouping loop never fires and the `getD` defaults are never the read
value. -/
def get_workout_trends (db : DB) (user : Nat)
    (filt : Option StatsTimeRangeFilter) (now : PyDateTime)
    (metric period : String) : WorkoutTrends :=
  let sessions := completedSessions db user filt now
  match sessions with
  | [] => WorkoutTrends.mk metric period []
  | _ :: _ =>
      let pts : List TrendPoint :=
        if period = "daily" ∨ period = "weekly" ∨ period = "monthly" then
          (groupPairs (fun s =>
              trendBucketKey period (s.completed_at.getD pyDateTimeMin))
              sessions).filterMap (fun kg =>
            (bucketValue db metric kg.2).map (fun v =>
              TrendPoint.mk ⟨kg.1, 0⟩ v))
        else []
      WorkoutTrends.mk metric period
        (pySort (fun a b => PyDateTime.leb a.date b.date) pts)

/-- Value of one trend bucket as the specification words it: summed valid
session volume, summed `active_duration` in minutes, or session count. -/
def trendValueSpec (db : DB) (metric : String) (gs : List WorkoutSession) :
    ℚ :=
  if metric = "volume" then (gs.map (sessionVolume db)).sum
  else if metric = "duration" then
    (gs.map (fun s => (s.active_duration.getD 0 : ℚ))).sum / 60
  else (gs.length : ℚ)

/-- A reference instant used by the concrete evaluations below. -/
def nowW : PyDateTime := ⟨739100, 0⟩

/-- Sample snapshot: one completed bench session with one warmup and two
working sets, the scenario of the specification. -/
def dbBench : DB :=
  DB.mk
    [Exercise.mk 1 "Bench" "chest"]
    [WorkoutSession.mk 1 1 (some ⟨739000, 0⟩) (some ⟨739000, 3600000000⟩)
      (some 3600)]
    [WorkoutSessionExercise.mk 1 1 1]
    [WorkoutSet.mk 1 1 (some 5) (some 40) true,
     WorkoutSet.mk 2 1 (some 8) (some 100) false,
     WorkoutSet.mk 3 1 (some 8) (some (205 / 2)) false]

/-- Sample snapshot: two completed sessions of the same exercise; the
newer session holds the heavier set (100 at 5 reps), the older one a
lighter set with more reps (50 at 8 reps). -/
def dbTwoSessions : DB :=
  DB.mk
    [Exercise.mk 1 "Bench" "chest"]
    [WorkoutSession.mk 1 1 (some ⟨739001, 0⟩) (some ⟨739001, 3600000000⟩)
      (some 3600),
     WorkoutSession.mk 2 1 (some ⟨739000, 0⟩) (some ⟨739000, 3600000000⟩)
      (some 3600)]
    [WorkoutSessionExercise.mk 1 1 1, WorkoutSessionExercise.mk 2 2 1]
    [WorkoutSet.mk 1 1 (some 5) (some 100) false,
     WorkoutSet.mk 2 2 (some 8) (some 50) false]

/-- Sample snapshot with a negative stored weight (the API schema does not
constrain `weight` to be non-negative): chest volume 100, back volume
-50. -/
def dbNegWeight : DB :=
  DB.mk
    [Exercise.mk 1 "Bench" "chest", Exercise.mk 2 "Row" "back"]
    [WorkoutSession.mk 1 1 (some ⟨739000, 0⟩) (some ⟨739000, 3600000000⟩)
      (some 3600)]
    [WorkoutSessionExercise.mk 1 1 1, WorkoutSessionExercise.mk 2 1 2]
    [WorkoutSet.mk 1 1 (some 10) (some 10) false,
     WorkoutSet.mk 2 2 (some 5) (some (-10)) false]

/-- Sample snapshot for the personal-records skip rule: exercise 1 has its
8-rep maximum in an uncompleted session, exercise 2 a 5-rep set in a
completed one. -/
def dbPRSkip : DB :=
  DB.mk
    [Exercise.mk 1 "Bench" "chest", Exercise.mk 2 "Squat" "legs"]
    [WorkoutSession.mk 1 1 (some ⟨739001, 0⟩) none none,
     WorkoutSession.mk 2 1 (some ⟨739000, 0⟩) (some ⟨739000, 3600000000⟩)
      (some 3600)]
    [WorkoutSessionExercise.mk 1 1 1, WorkoutSessionExercise.mk 2 2 2]
    [WorkoutSet.mk 1 1 (some 8) (some 50) false,
     WorkoutSet.mk 2 2 (some 5) (some 60) false]

/-- The empty snapshot. -/
def dbEmpty : DB := DB.mk [] [] [] []

/-- Sample snapshot where the only session of the user is uncompleted. -/
def dbUncompleted : DB :=
  DB.mk
    [Exercise.mk 1 "Bench" "chest"]
    [WorkoutSession.mk 1 1 (some ⟨739000, 0⟩) none none]
    [WorkoutSessionExercise.mk 1 1 1]
    [WorkoutSet.mk 1 1 (some 8) (some 100) false]

/-- Sample snapshot where every stored set has a NULL weight. -/
def dbNullWeight : DB :=
  DB.mk
    [Exercise.mk 1 "Run" "legs"]
    [WorkoutSession.mk 1 1 (some ⟨739000, 0⟩) (some ⟨739000, 3600000000⟩)
      (some 3600)]
    [WorkoutSessionExercise.mk 1 1 1]
    [WorkoutSet.mk 1 1 (some 20) none false]

/-- The record of `dbBench` as the personal-records aggregator reports
it. -/
def prBenchRecord : PRRecord :=
  PRRecord.mk 1 "Bench" "chest" (205 / 2) 8 ⟨739000, 3600000000⟩ (3690 / 29)

/-- The joined row of the 8-rep set of `dbPRSkip`, whose session is
uncompleted. -/
def prSkipRow : SetRow :=
  SetRow.mk (WorkoutSet.mk 1 1 (some 8) (some 50) false)
    (WorkoutSessionExercise.mk 1 1 1)
    (WorkoutSession.mk 1 1 (some ⟨739001, 0⟩) none none)

/-- The single record `dbPRSkip` yields: the completed 5-rep squat set
(estimate 60 * 36 / 32 = 67.5). -/
def prSquatRecord : PRRecord :=
  PRRecord.mk 2 "Squat" "legs" 60 5 ⟨739000, 3600000000⟩ (135 / 2)

/-- The muscle-group statistics of `dbBench` at `nowW`: one chest entry
with volume 1820, three counted sets, activity 1 and full recovery. -/
def muscleBenchStats : MuscleGroupStats :=
  MuscleGroupStats.mk ⟨739000, 0⟩ ⟨739000, 3600000000⟩
    [MuscleGroupActivity.mk "chest" 1820 3 1 (some ⟨739000, 3600000000⟩)
      (some 100)]

/-! Generic lemmas about the Python-semantics helpers. -/

theorem pyMaxKey_cons {A K : Type} [LinearOrder K] (key : A → K) (a x : A)
    (xs : List A) :
    pyMaxKey key a (x :: xs) = pyMaxKey key (if key a < key x then x else a) xs :=
  rfl

theorem pyMaxKey_mem {A K : Type} [LinearOrder K] (key : A → K) (a : A)
    (l : List A) : pyMaxKey key a l ∈ a :: l := by
  induction l generalizing a with
  | nil => simp [pyMaxKey]
  | cons x xs ih =>
      rw [pyMaxKey_cons]
      by_cases h : key a < key x
      · rw [if_pos h]
        exact List.mem_cons_of_mem a (ih x)
      · rw [if_neg h]
        rcases List.mem_cons.mp (ih a) with h1 | h1
        · rw [h1]
          exact List.mem_cons_self a _
        · exact List.mem_cons_of_mem a (List.mem_cons_of_mem x h1)

theorem le_pyMaxKey {A K : Type} [LinearOrder K] (key : A → K) (a : A)
    (l : List A) : ∀ x ∈ a :: l, key x ≤ key (pyMaxKey key a l) := by
  induction l generalizing a with
  | nil =>
      intro x hx
      rcases List.mem_cons.mp hx with h1 | h1
      · rw [h1]
        exact le_rfl
      · cases h1
  | cons y ys ih =>
      intro x hx
      rw [pyMaxKey_cons]
      have hb1 : key a ≤ key (pyMaxKey key (if key a < key y then y else a) ys) := by
        by_cases h : key a < key y
        · rw [if_pos h]
          exact le_trans (le_of_lt h) (ih y y (List.mem_cons_self y ys))
        · rw [if_neg h]
          exact ih a a (List.mem_cons_self a ys)
      have hb2 : key y ≤ key (pyMaxKey key (if key a < key y then y else a) ys) := by
        by_cases h : key a < key y
        · rw [if_pos h]
          exact ih y y (List.mem_cons_self y ys)
        · rw [if_neg h]
          exact le_trans (not_lt.mp h) (ih a a (List.mem_cons_self a ys))
      rcases List.mem_cons.mp hx with h1 | h1
      · rw [h1]
        exact hb1
      · rcases List.mem_cons.mp h1 with h2 | h2
        · rw [h2]
          exact hb2
        · by_cases h : key a < key y
          · rw [if_pos h]
            exact ih y x (List.mem_cons_of_mem y h2)
          · rw [if_neg h]
            exact ih a x (List.mem_cons_of_mem a h2)

theorem pyInsert_perm {A : Type} (le : A → A → Bool) (a : A) (l : List A) :
    (pyInsert le a l).Perm (a :: l) := by
  induction l with
  | nil => exact List.Perm.refl _
  | cons b l ih =>
      by_cases h : le a b = true
      · rw [pyInsert, if_pos h]
      · rw [pyInsert, if_neg h]
        exact List.Perm.trans (List.Perm.cons b ih) (List.Perm.swap a b l)

theorem pySort_perm {A : Type} (le : A → A → Bool) (l : List A) :
    (pySort le l).Perm l := by
  induction l with
  | nil => exact List.Perm.refl _
  | cons b l ih =>
      exact List.Perm.trans (pyInsert_perm le b (pySort le l))
        (List.Perm.cons b ih)

theorem pyInsert_pairwise {A : Type} (le : A → A → Bool)
    (htot : ∀ x y, le x y = true ∨ le y x = true)
    (htrans : ∀ x y z, le x y = true → le y z = true → le x z = true)
    (a : A) (l : List A) (hl : l.Pairwise (fun x y => le x y = true)) :
    (pyInsert le a l).Pairwise (fun x y => le x y = true) := by
  induction l with
  | nil => simp [pyInsert]
  | cons b l ih =>
      rcases List.pairwise_cons.mp hl with ⟨hb, hl'⟩
      by_cases h : le a b = true
      · rw [pyInsert, if_pos h]
        refine List.pairwise_cons.mpr ⟨?_, hl⟩
        intro x hx
        rcases List.mem_cons.mp hx with h1 | h1
        · rw [h1]
          exact h
        · exact htrans a b x h (hb x h1)
      · rw [pyInsert, if_neg h]
        refine List.pairwise_cons.mpr ⟨?_, ih hl'⟩
        intro x hx
        have hx' := (pyInsert_perm le a l).mem_iff.mp hx
        rcases List.mem_cons.mp hx' with h1 | h1
        · rw [h1]
          rcases htot a b with h2 | h2
          · exact absurd h2 h
          · exact h2
        · exact hb x h1

theorem pySort_pairwise {A : Type} (le : A → A → Bool)
    (htot : ∀ x y, le x y = true ∨ le y x = true)
    (htrans : ∀ x y z, le x y = true → le y z = true → le x z = true)
    (l : List A) :
    (pySort le l).Pairwise (fun x y => le x y = true) := by
  induction l with
  | nil => simp [pySort]
  | cons b l ih => exact pyInsert_pairwise le htot htrans b _ ih

theorem mem_firstDedup {K : Type} [DecidableEq K] (l : List K) (k : K) :
    k ∈ firstDedup l ↔ k ∈ l := by
  induction l with
  | nil => simp [firstDedup]
  | cons a t ih =>
      by_cases hk : k = a <;>
        simp [firstDedup, List.mem_filter, hk, ih]

theorem firstDedup_nodup {K : Type} [DecidableEq K] (l : List K) :
    (firstDedup l).Nodup := by
  induction l with
  | nil => simp [firstDedup]
  | cons a t ih =>
      rw [firstDedup, List.nodup_cons]
      constructor
      · intro h
        have := (List.mem_filter.mp h).2
        simp at this
      · exact List.Nodup.filter _ ih

theorem firstDedup_append {K : Type} [DecidableEq K] (l : List K) (k : K) :
    firstDedup (l ++ [k]) = firstDedup l ++ (if k ∈ l then [] else [k]) := by
  induction l with
  | nil => simp [firstDedup]
  | cons a t ih =>
      rw [List.cons_append, firstDedup, ih, List.filter_append, firstDedup]
      by_cases hk : k ∈ t
      · rw [if_pos hk, if_pos (List.mem_cons_of_mem a hk)]
        simp
      · by_cases hak : k = a
        · subst hak
          rw [if_neg hk, if_pos (List.mem_cons_self k t)]
          simp
        · rw [if_neg hk, if_neg (by simp [hak, hk])]
          simp [hak]

theorem dictAppend_map_not_mem {K A : Type} [DecidableEq K] (ks : List K)
    (f : K → List A) (k : K) (v : A) (hk : k ∉ ks) :
    dictAppend k v (ks.map (fun x => (x, f x))) =
      ks.map (fun x => (x, f x)) ++ [(k, [v])] := by
  induction ks with
  | nil => rfl
  | cons a t ih =>
      have hka : ¬(a = k) := by
        rintro rfl
        exact hk (List.mem_cons_self a t)
      rw [List.map_cons, dictAppend, if_neg hka, List.cons_append,
        ih (fun h => hk (List.mem_cons_of_mem a h))]

theorem dictAppend_map_mem {K A : Type} [DecidableEq K] (ks : List K)
    (f : K → List A) (k : K) (v : A) (hnd : ks.Nodup) (hk : k ∈ ks) :
    dictAppend k v (ks.map (fun x => (x, f x))) =
      ks.map (fun x => (x, if x = k then f x ++ [v] else f x)) := by
  induction ks with
  | nil => cases hk
  | cons a t ih =>
      rcases List.mem_cons.mp hk with h1 | hkt
      · rw [List.map_cons, dictAppend, if_pos h1.symm, List.map_cons,
          if_pos h1.symm]
        have hknt : a ∉ t := (List.nodup_cons.mp hnd).1
        have hmap : t.map (fun x => (x, if x = k then f x ++ [v] else f x)) =
            t.map (fun x => (x, f x)) := by
          apply List.map_congr_left
          intro x hx
          have hxk : ¬(x = k) := by
            intro he
            subst he
            exact hknt (h1 ▸ hx)
          rw [if_neg hxk]
        rw [hmap]
      · have hak : ¬(a = k) := by
          intro he
          subst he
          exact (List.nodup_cons.mp hnd).1 hkt
        rw [List.map_cons, dictAppend, if_neg hak, List.map_cons,
          ih (List.nodup_cons.mp hnd).2 hkt, if_neg hak]

theorem groupPairs_append {K A : Type} [DecidableEq K] (key : A → K)
    (xs : List A) (x : A) :
    groupPairs key (xs ++ [x]) = dictAppend (key x) x (groupPairs key xs) := by
  simp [groupPairs, List.foldl_append]

theorem groupPairs_eq {K A : Type} [DecidableEq K] (key : A → K)
    (xs : List A) :
    groupPairs key xs =
      (firstDedup (xs.map key)).map
        (fun k => (k, xs.filter (fun x => decide (key x = k)))) := by
  induction xs using List.reverseRecOn with
  | nil => rfl
  | append_singleton xs x ih =>
      rw [groupPairs_append, ih, List.map_append, List.map_cons, List.map_nil,
        firstDedup_append]
      by_cases hk : key x ∈ xs.map key
      · rw [if_pos hk, List.append_nil,
          dictAppend_map_mem _ _ _ _ (firstDedup_nodup _)
            ((mem_firstDedup _ _).mpr hk)]
        apply List.map_congr_left
        intro k hkmem
        rw [List.filter_append]
        by_cases hkx : k = key x
        · subst hkx
          simp
        · have hxs : ¬(key x = k) := fun h => hkx h.symm
          simp [hxs, hkx]
      · rw [if_neg hk,
          dictAppend_map_not_mem _ _ _ _
            (fun h => hk ((mem_firstDedup _ _).mp h)),
          List.map_append]
        congr 1
        · apply List.map_congr_left
          intro k hkmem
          rw [List.filter_append]
          have hkx : ¬(key x = k) := by
            rintro rfl
            exact hk ((mem_firstDedup _ _).mp hkmem)
          simp [hkx]
        · have : xs.filter (fun y => decide (key y = key x)) = [] := by
            rw [List.filter_eq_nil_iff]
            intro a ha
            simp only [decide_eq_true_eq]
            intro he
            exact hk (List.mem_map.mpr ⟨a, ha, he⟩)
          simp [this]

theorem groupPairs_mem {K A : Type} [DecidableEq K] (key : A → K)
    (xs : List A) (k : K) (g : List A)
    (h : (k, g) ∈ groupPairs key xs) :
    k ∈ xs.map key ∧ g = xs.filter (fun x => decide (key x = k)) := by
  rw [groupPairs_eq] at h
  rcases List.mem_map.mp h with ⟨k', hk', he⟩
  have hk2 : k' = k := congrArg Prod.fst he
  have hg : g = xs.filter (fun x => decide (key x = k')) :=
    (congrArg Prod.snd he).symm
  subst hk2
  exact ⟨(mem_firstDedup _ _).mp hk', hg⟩

theorem collectE_ok_mem {A B : Type} (f : A → Except PyErr (List B))
    (xs : List A) (l : List B) (h : collectE f xs = Except.ok l) (b : B)
    (hb : b ∈ l) : ∃ x ∈ xs, ∃ lx, f x = Except.ok lx ∧ b ∈ lx := by
  induction xs generalizing l with
  | nil =>
      simp only [collectE, Except.ok.injEq] at h
      subst h
      cases hb
  | cons x xs ih =>
      simp only [collectE] at h
      cases hfx : f x with
      | error e => rw [hfx] at h; cases h
      | ok lx =>
          rw [hfx] at h
          cases hrest : collectE f xs with
          | error e => rw [hrest] at h; cases h
          | ok ls =>
              rw [hrest] at h
              have hl : lx ++ ls = l := by
                cases h
                rfl
              subst hl
              rcases List.mem_append.mp hb with hbl | hbr
              · exact ⟨x, List.mem_cons_self x xs, lx, hfx, hbl⟩
              · rcases ih ls hrest hbr with ⟨x', hx', lx', hfx', hb'⟩
                exact ⟨x', List.mem_cons_of_mem x hx', lx', hfx', hb'⟩

theorem collectE_all_nil {A B : Type} (f : A → Except PyErr (List B))
    (xs : List A) (h : ∀ x ∈ xs, f x = Except.ok []) :
    collectE f xs = Except.ok [] := by
  induction xs with
  | nil => rfl
  | cons x xs ih =>
      simp only [collectE]
      rw [h x (List.mem_cons_self x xs),
        ih (fun y hy => h y (List.mem_cons_of_mem x hy))]
      rfl

theorem bestOneRepMaxFrom_error (rows : List SetRow) :
    ∀ (acc : ℚ) (e : PyErr), bestOneRepMaxFrom acc rows = Except.error e →
      e = PyErr.zeroDivision := by
  induction rows with
  | nil =>
      intro acc e h
      cases h
  | cons r rows ih =>
      intro acc e h
      rw [bestOneRepMaxFrom] at h
      by_cases hg : (truthyQ r.set.weight && truthyI r.set.reps_completed) = true
      · rw [if_pos hg] at h
        cases hest : estimate_one_rep_max (r.set.weight.getD 0)
            (r.set.reps_completed.getD 0) with
        | none =>
            rw [hest] at h
            cases h
            rfl
        | some v =>
            rw [hest] at h
            exact ih _ _ h
      · rw [if_neg hg] at h
        exact ih _ _ h

theorem bestOneRepMax_error (rows : List SetRow) (e : PyErr)
    (h : bestOneRepMax rows = Except.error e) : e = PyErr.zeroDivision :=
  bestOneRepMaxFrom_error rows 0 e h

theorem le_pages_mul (a L : Nat) (hL : 1 ≤ L) :
    a ≤ ((a + L - 1) / L) * L := by
  have hd := Nat.div_add_mod (a + L - 1) L
  have hm : (a + L - 1) % L < L := Nat.mod_lt _ (by omega)
  rw [Nat.mul_comm]
  generalize hX : L * ((a + L - 1) / L) = X at hd ⊢
  omega

theorem flatten_chunks {A : Type} (L : Nat) (hL : 1 ≤ L) :
    ∀ (n : Nat) (rs : List A), rs.length ≤ n * L →
      ((List.range n).map (fun p => (rs.drop (p * L)).take L)).flatten = rs := by
  intro n
  induction n with
  | zero =>
      intro rs h
      simp only [Nat.zero_mul, Nat.le_zero, List.length_eq_zero] at h
      subst h
      rfl
  | succ n ih =>
      intro rs h
      rw [List.range_succ_eq_map, List.map_cons, List.flatten_cons,
        List.map_map]
      have hfun : ((fun p => (rs.drop (p * L)).take L) ∘ Nat.succ) =
          (fun p => ((rs.drop L).drop (p * L)).take L) := by
        funext p
        simp only [Function.comp_apply, List.drop_drop]
        rw [Nat.succ_mul, Nat.add_comm]
      have hlen : (rs.drop L).length ≤ n * L := by
        rw [List.length_drop]
        rw [Nat.succ_mul] at h
        generalize hY : n * L = Y at h ⊢
        omega
      rw [hfun, ih (rs.drop L) hlen, Nat.zero_mul, List.drop_zero]
      exact List.take_append_drop L rs

/-! Sanity checks of the calendar conversions against known anchors of
`date.toordinal` / `date.fromordinal`. -/

example : ymdToOrd 1 1 1 = 1 := by decide
example : ymdToOrd 1970 1 1 = 719163 := by decide
example : ordToYmd 719163 = (1970, 1, 1) := by decide
example : ordToYmd 1 = (1, 1, 1) := by decide
example : ymdToOrd 2000 3 1 = 730180 := by decide
example : ordToYmd 730180 = (2000, 3, 1) := by decide
example : weekdayPy (ymdToOrd 2024 1 15) = 0 := by decide
example : monthStartOrd (ymdToOrd 2024 2 29) = ymdToOrd 2024 2 1 := by decide

/-! Claim theorems. -/

/-- C3: `estimate_one_rep_max` returns 0 when `reps == 0`, returns exactly
the weight when `reps == 1` (for every positive weight), and returns
`weight * 36 / (37 - reps)` for every other rep count in the domain of the
formula.  At `reps == 37` the divisor of the formula is zero and the
source raises `ZeroDivisionError` rather than returning a value, so that
point is excluded from the third clause. -/
theorem estimate_one_rep_max_spec :
    (∀ w : ℚ, estimate_one_rep_max w 0 = some 0) ∧
    (∀ w : ℚ, 0 < w → estimate_one_rep_max w 1 = some w) ∧
    (∀ (w : ℚ) (reps : Int), reps ≠ 0 → reps ≠ 1 → reps ≠ 37 →
      estimate_one_rep_max w reps = some (w * 36 / (37 - (reps : ℚ)))) := by
  refine ⟨fun w => rfl, fun w hw => rfl, fun w reps h0 h1 h37 => ?_⟩
  rw [estimate_one_rep_max, if_neg h0, if_neg h1, if_neg h37, mul_div_assoc]

/-- Concrete instantiation of `estimate_one_rep_max_spec`. -/
theorem estimate_one_rep_max_spec_witness :
    estimate_one_rep_max 80 0 = some 0 ∧
    ((0 : ℚ) < 80 ∧ estimate_one_rep_max 80 1 = some 80) ∧
    ((5 : Int) ≠ 0 ∧ (5 : Int) ≠ 1 ∧ (5 : Int) ≠ 37 ∧
      estimate_one_rep_max 80 5 = some (80 * 36 / (37 - ((5 : Int) : ℚ)))) :=
  ⟨estimate_one_rep_max_spec.1 80,
   ⟨by norm_num, estimate_one_rep_max_spec.2.1 80 (by norm_num)⟩,
   ⟨by decide, by decide, by decide,
    estimate_one_rep_max_spec.2.2 80 5 (by decide) (by decide) (by decide)⟩⟩

/-- C2: the guarded volume accumulation used by every aggregator equals
the sum of `weight * reps_completed` over exactly the sets whose two
fields are both non-null: a null field excludes the set entirely, while a
stored zero weight or zero rep count contributes a counted volume of
zero.  The second clause restates this for the per-session volume used by
the trend aggregator. -/
theorem pyVolumeSum_spec :
    (∀ sets : List WorkoutSet,
      pyVolumeSum sets =
        ((sets.filter (fun s =>
          s.weight.isSome && s.reps_completed.isSome)).map
            setVolumeTerm).sum) ∧
    (∀ (db : DB) (s : WorkoutSession),
      sessionVolume db s =
        (((sessionSets db s).filter (fun st =>
          st.weight.isSome && st.reps_completed.isSome)).map
            setVolumeTerm).sum) := by
  have main : ∀ sets : List WorkoutSet,
      pyVolumeSum sets =
        ((sets.filter (fun s =>
          s.weight.isSome && s.reps_completed.isSome)).map
            setVolumeTerm).sum := by
    intro sets
    induction sets with
    | nil => rfl
    | cons s t ih =>
        simp only [pyVolumeSum] at ih ⊢
        cases hw : s.weight with
        | none =>
            have h1 : (truthyQ s.weight && truthyI s.reps_completed) =
                false := by simp [truthyQ, hw]
            have h2 : (s.weight.isSome && s.reps_completed.isSome) =
                false := by simp [hw]
            simp only [List.filter_cons, h1, h2]
            simpa using ih
        | some w =>
            cases hr : s.reps_completed with
            | none =>
                have h1 : (truthyQ s.weight && truthyI s.reps_completed) =
                    false := by simp [truthyQ, truthyI, hw, hr]
                have h2 : (s.weight.isSome && s.reps_completed.isSome) =
                    false := by simp [hw, hr]
                simp only [List.filter_cons, h1, h2]
                simpa using ih
            | some n =>
                have h2 : (s.weight.isSome && s.reps_completed.isSome) =
                    true := by simp [hw, hr]
                by_cases hz : w = 0 ∨ n = 0
                · have h1 : (truthyQ s.weight && truthyI s.reps_completed) =
                      false := by
                    rcases hz with hz | hz <;>
                      simp [truthyQ, truthyI, hw, hr, hz]
                  have hterm : setVolumeTerm s = 0 := by
                    rcases hz with hz | hz <;>
                      simp [setVolumeTerm, hw, hr, hz]
                  simp only [List.filter_cons, h1, h2]
                  simpa [hterm] using ih
                · rcases not_or.mp hz with ⟨hw0, hn0⟩
                  have h1 : (truthyQ s.weight && truthyI s.reps_completed) =
                      true := by simp [truthyQ, truthyI, hw, hr, hw0, hn0]
                  simp only [List.filter_cons, h1, h2]
                  simpa using ih
  exact ⟨main, fun db s => main (sessionSets db s)⟩

/-- C6: with both explicit dates present the filter is exactly the closed
range from the first instant of the start date to the last instant of the
end date, the period token being ignored; with no explicit dates and a
recognized period the filter is exactly the lower bound `now` minus 7, 30
or 365 days with no upper bound; with no explicit dates and an absent,
`all`, or unrecognized period the filter accepts everything. -/
theorem apply_date_filter_spec (now t : PyDateTime) :
    (∀ (sd ed : Int) (p : Option String),
      apply_date_filter now (StatsTimeRangeFilter.mk (some sd) (some ed) p)
          (some t) =
        (PyDateTime.leb ⟨sd, 0⟩ t && PyDateTime.leb t ⟨ed, lastMicro⟩)) ∧
    (∀ (p : String) (n : Int),
      (p = "week" ∧ n = 7) ∨ (p = "month" ∧ n = 30) ∨ (p = "year" ∧ n = 365) →
      apply_date_filter now (StatsTimeRangeFilter.mk none none (some p))
          (some t) =
        PyDateTime.leb (now.subDays n) t) ∧
    (∀ p : Option String,
      (∀ s, p = some s → s ≠ "week" ∧ s ≠ "month" ∧ s ≠ "year") →
      apply_date_filter now (StatsTimeRangeFilter.mk none none p) (some t) =
        true) := by
  refine ⟨fun sd ed p => ?_, fun p n h => ?_, fun p h => ?_⟩
  · simp [apply_date_filter, periodActive]
  · rcases h with ⟨rfl, rfl⟩ | ⟨rfl, rfl⟩ | ⟨rfl, rfl⟩ <;>
      simp [apply_date_filter, periodActive, periodStartDT, truthyS,
        Option.bind]
  · cases p with
    | none => simp [apply_date_filter, periodActive]
    | some s =>
        rcases h s rfl with ⟨h1, h2, h3⟩
        by_cases hall : s = "all"
        · simp [apply_date_filter, periodActive, hall]
        · by_cases hemp : s = ""
          · simp [apply_date_filter, periodActive, truthyS, hemp]
          · simp [apply_date_filter, periodActive, truthyS, hemp, hall,
              periodStartDT, h1, h2, h3, Option.bind]

/-- Concrete instantiation of `apply_date_filter_spec`. -/
theorem apply_date_filter_spec_witness :
    (apply_date_filter nowW (StatsTimeRangeFilter.mk (some 10) (some 20)
        (some "week")) (some ⟨15, 0⟩) =
      (PyDateTime.leb ⟨10, 0⟩ ⟨15, 0⟩ &&
        PyDateTime.leb ⟨15, 0⟩ ⟨20, lastMicro⟩)) ∧
    (((("month" : String) = "week" ∧ (30 : Int) = 7) ∨
        (("month" : String) = "month" ∧ (30 : Int) = 30) ∨
        (("month" : String) = "year" ∧ (30 : Int) = 365)) ∧
      apply_date_filter nowW (StatsTimeRangeFilter.mk none none
          (some "month")) (some ⟨739080, 0⟩) =
        PyDateTime.leb (nowW.subDays 30) ⟨739080, 0⟩) ∧
    apply_date_filter nowW (StatsTimeRangeFilter.mk none none (some "all"))
        (some ⟨5, 0⟩) = true :=
  ⟨(apply_date_filter_spec nowW ⟨15, 0⟩).1 10 20 (some "week"),
   ⟨Or.inr (Or.inl ⟨rfl, rfl⟩),
    (apply_date_filter_spec nowW ⟨739080, 0⟩).2.1 "month" 30
      (Or.inr (Or.inl ⟨rfl, rfl⟩))⟩,
   (apply_date_filter_spec nowW ⟨5, 0⟩).2.2 (some "all")
     (by intro s hs; cases hs; exact ⟨by decide, by decide, by decide⟩)⟩

theorem overview_zero_of_nil (db : DB) (user : Nat)
    (filt : Option StatsTimeRangeFilter) (now : PyDateTime)
    (h : overviewSessions db user filt now = []) :
    get_workout_overview db user filt now = zeroOverview := by
  simp [get_workout_overview, h]

theorem overview_zero_of_uncompleted (db : DB) (user : Nat)
    (filt : Option StatsTimeRangeFilter) (now : PyDateTime)
    (h : ∀ s ∈ overviewSessions db user filt now, s.completed_at = none) :
    get_workout_overview db user filt now = zeroOverview := by
  cases hs : overviewSessions db user filt now with
  | nil => simp [get_workout_overview, hs]
  | cons s0 srest =>
      have hfil : (s0 :: srest).filter (fun s => s.completed_at.isSome) =
          [] := by
        rw [List.filter_eq_nil_iff]
        intro a ha
        rw [← hs] at ha
        simp [h a ha]
      simp [get_workout_overview, hs, hfil]

/-- C8: the overview aggregator returns the all-zero record (with
`most_trained_muscle = "None"` and `workout_consistency = 0`) both when no
session of the user lies in range and when sessions exist but none is
completed, raising nothing in either case. -/
theorem get_workout_overview_zero (db : DB) (user : Nat)
    (filt : Option StatsTimeRangeFilter) (now : PyDateTime) :
    (overviewSessions db user filt now = [] →
      get_workout_overview db user filt now = zeroOverview) ∧
    ((∀ s ∈ overviewSessions db user filt now, s.completed_at = none) →
      get_workout_overview db user filt now = zeroOverview) :=
  ⟨overview_zero_of_nil db user filt now,
   overview_zero_of_uncompleted db user filt now⟩

/-- Concrete instantiation of `get_workout_overview_zero`: a user whose
only session is uncompleted gets the all-zero overview. -/
theorem get_workout_overview_zero_witness :
    (∀ s ∈ overviewSessions dbUncompleted 1 none nowW,
      s.completed_at = none) ∧
    get_workout_overview dbUncompleted 1 none nowW = zeroOverview :=
  ⟨by decide,
   (get_workout_overview_zero dbUncompleted 1 none nowW).2 (by decide)⟩

/-- C1: evaluation of `get_exercise_progress` on `dbTwoSessions`, where
the windowed sets are (weight 100, 5 reps) in the newer session and
(weight 50, 8 reps) in the older one.  The best-weight set of the window
is the 100 at 5 reps, yet the code reports `personal_record_weight = 50`
(the loop variable `max_weight_set` is reassigned per session and ends on
the last-iterated, oldest session), `personal_record_reps = 8` (taken from
the separate maximum-reps scan, not from the best-weight set), and the
older session date; only `one_rep_max_estimated = 112.5` comes from the
true overall best set. -/
theorem get_exercise_progress_bug :
    ((progressRows dbTwoSessions 1 1 none nowW).map (fun r =>
      (wKey r.set, rKey r.set))) = [(100, 5), (50, 8)] ∧
    (get_exercise_progress dbTwoSessions 1 1 none nowW).toOption.map
      (fun r => (r.personal_record_weight, r.personal_record_reps,
        r.personal_record_date, r.one_rep_max_estimated)) =
      some (some 50, some 8, some ⟨739000, 0⟩, some (225 / 2)) := by
  constructor
  · decide
  · decide

theorem recordForGroup_mem (e : Exercise) (reps : Int) (g : List SetRow)
    (l2 : List PRRecord) (r : PRRecord)
    (h : recordForGroup e reps g = Except.ok l2) (hr : r ∈ l2) :
    r.exercise_id = e.id ∧ r.reps = reps ∧
    ∃ q qs, g = q :: qs ∧
      (pyMaxKey (fun x => wKey x.set) q qs).session.completed_at ≠ none := by
  cases g with
  | nil =>
      rw [recordForGroup] at h
      cases h
      cases hr
  | cons q qs =>
      rw [recordForGroup] at h
      cases hc : (pyMaxKey (fun x => wKey x.set) q qs).session.completed_at with
      | none =>
          rw [hc] at h
          cases h
          cases hr
      | some c =>
          rw [hc] at h
          cases hest : estimate_one_rep_max
              ((pyMaxKey (fun x => wKey x.set) q qs).set.weight.getD 0)
              reps with
          | none => rw [hest] at h; cases h
          | some est =>
              rw [hest] at h
              cases h
              rcases List.mem_singleton.mp hr with rfl
              refine ⟨rfl, rfl, q, qs, rfl, ?_⟩
              rw [hc]
              exact Option.some_ne_none c

/-- C10: if the heaviest qualifying set of an (exercise, rep-count) group
belongs to a session with no `completed_at`, then the personal-records
aggregator emits no record at all for that pair, neither in the full
sorted list nor in any page; it does not fall back to the heaviest set
from a completed session. -/
theorem get_personal_records_skip_uncompleted (db : DB) (user : Nat)
    (filt : Option StatsTimeRangeFilter) (now : PyDateTime) (exid : Nat)
    (reps : Int) (q : SetRow) (qs : List SetRow)
    (hg : (prQualRows db user exid filt now).filter
        (fun x => decide (rKey x.set = reps)) = q :: qs)
    (hunc : (pyMaxKey (fun x => wKey x.set) q qs).session.completed_at =
      none) :
    (∀ rs : List PRRecord,
      prSortedRecords db user filt now = Except.ok rs →
      ∀ r ∈ rs, ¬(r.exercise_id = exid ∧ r.reps = reps)) ∧
    (∀ (page limit : Nat) (res : PersonalRecordsResponse),
      get_personal_records db user filt now page limit = Except.ok res →
      ∀ r ∈ res.records, ¬(r.exercise_id = exid ∧ r.reps = reps)) := by
  have key : ∀ recs : List PRRecord,
      prAllRecords db user filt now = Except.ok recs →
      ∀ r ∈ recs, ¬(r.exercise_id = exid ∧ r.reps = reps) := by
    intro recs hall r hrmem hcontra
    rcases hcontra with ⟨hex, hreps⟩
    rcases collectE_ok_mem _ _ _ hall r hrmem with ⟨e, hemem, lx, hfx, hrlx⟩
    rcases collectE_ok_mem _ _ _ hfx r hrlx with ⟨kg, hkgmem, l2, hl2, hrl2⟩
    rcases recordForGroup_mem e kg.1 kg.2 l2 r hl2 hrl2 with
      ⟨hid, hrp, q', qs', hgq, hne⟩
    rcases groupPairs_mem _ _ _ _ hkgmem with ⟨_, hfilter⟩
    have heid : e.id = exid := by rw [← hid, hex]
    have hk1 : kg.1 = reps := by rw [← hrp, hreps]
    rw [heid, hk1] at hfilter
    rw [hg] at hfilter
    rw [hfilter] at hgq
    cases hgq
    exact hne hunc
  constructor
  · intro rs hrs r hrmem
    rw [prSortedRecords] at hrs
    cases hall : prAllRecords db user filt now with
    | error e => rw [hall] at hrs; cases hrs
    | ok recs =>
        rw [hall] at hrs
        cases hrs
        exact key recs hall r ((pySort_perm _ recs).mem_iff.mp hrmem)
  · intro page limit res hres r hrmem
    rw [get_personal_records] at hres
    by_cases hemp : (userExercises db user).isEmpty = true
    · rw [if_pos hemp] at hres
      cases hres
      cases hrmem
    · rw [if_neg hemp] at hres
      cases hsr : prSortedRecords db user filt now with
      | error e => rw [hsr] at hres; cases hres
      | ok sorted =>
          rw [hsr] at hres
          cases hres
          have hsub : r ∈ sorted :=
            List.drop_subset _ _ (List.take_subset _ _ hrmem)
          rw [prSortedRecords] at hsr
          cases hall : prAllRecords db user filt now with
          | error e2 => rw [hall] at hsr; cases hsr
          | ok recs =>
              rw [hall] at hsr
              cases hsr
              exact key recs hall r ((pySort_perm _ recs).mem_iff.mp hsub)

/-- Concrete instantiation of `get_personal_records_skip_uncompleted` on
`dbPRSkip`: the 8-rep group of exercise 1 sits in an uncompleted session,
so the only record produced is the squat record of exercise 2. -/
theorem get_personal_records_skip_uncompleted_witness :
    ((prQualRows dbPRSkip 1 1 none nowW).filter
      (fun x => decide (rKey x.set = 8)) = [prSkipRow]) ∧
    (pyMaxKey (fun x => wKey x.set) prSkipRow []).session.completed_at =
      none ∧
    prSortedRecords dbPRSkip 1 none nowW = Except.ok [prSquatRecord] ∧
    ¬(prSquatRecord.exercise_id = 1 ∧ prSquatRecord.reps = 8) :=
  ⟨by decide, by decide, by decide,
   (get_personal_records_skip_uncompleted dbPRSkip 1 none nowW 1 8 prSkipRow
     [] (by decide) (by decide)).1 [prSquatRecord] (by decide) prSquatRecord
     (by decide)⟩

/-- C4: for any limit `L` between 1 and 50, the personal-records response
at page `p` is exactly the slice `[p*L, p*L + L)` of the descending-sorted
full record list together with its total length, the full list is sorted
descending by estimated one-rep-max, and concatenating the pages
`0, 1, 2, ...` (one page per started chunk) reproduces the full list with
no duplicates and no omissions. -/
theorem get_personal_records_pagination (db : DB) (user : Nat)
    (filt : Option StatsTimeRangeFilter) (now : PyDateTime) (L : Nat)
    (h1 : 1 ≤ L) (h50 : L ≤ 50) (rs : List PRRecord)
    (hrs : prSortedRecords db user filt now = Except.ok rs) :
    rs.Pairwise (fun a b =>
      b.estimated_one_rep_max ≤ a.estimated_one_rep_max) ∧
    (∀ page : Nat, get_personal_records db user filt now page L =
      Except.ok (PersonalRecordsResponse.mk ((rs.drop (page * L)).take L)
        rs.length)) ∧
    ((List.range ((rs.length + L - 1) / L)).map (fun p =>
      (rs.drop (p * L)).take L)).flatten = rs := by
  rw [prSortedRecords] at hrs
  cases hall : prAllRecords db user filt now with
  | error e => rw [hall] at hrs; cases hrs
  | ok recs =>
      rw [hall] at hrs
      cases hrs
      refine ⟨?_, ?_, ?_⟩
      · have hp := pySort_pairwise (fun a b : PRRecord =>
          decide (b.estimated_one_rep_max ≤ a.estimated_one_rep_max))
          (fun x y => by
            rcases le_total y.estimated_one_rep_max x.estimated_one_rep_max
              with h | h
            · exact Or.inl (decide_eq_true h)
            · exact Or.inr (decide_eq_true h))
          (fun x y z hxy hyz => decide_eq_true
            (le_trans (of_decide_eq_true hyz) (of_decide_eq_true hxy)))
          recs
        exact hp.imp (fun h => of_decide_eq_true h)
      · intro page
        rw [get_personal_records]
        by_cases hemp : (userExercises db user).isEmpty = true
        · have hnil : userExercises db user = [] :=
            List.isEmpty_iff.mp hemp
          have hrecs : prAllRecords db user filt now = Except.ok [] := by
            rw [prAllRecords, hnil]
            rfl
          rw [hall] at hrecs
          cases hrecs
          rw [if_pos hemp]
          simp [prSortDesc, pySort]
        · rw [if_neg hemp, prSortedRecords, hall]
      · exact flatten_chunks L h1 _ (prSortDesc recs)
          (le_pages_mul (prSortDesc recs).length L h1)

/-- Concrete instantiation of `get_personal_records_pagination` on
`dbBench` with limit 1. -/
theorem get_personal_records_pagination_witness :
    (1 : Nat) ≤ 1 ∧ (1 : Nat) ≤ 50 ∧
    prSortedRecords dbBench 1 none nowW = Except.ok [prBenchRecord] ∧
    List.Pairwise (fun a b : PRRecord =>
      b.estimated_one_rep_max ≤ a.estimated_one_rep_max) [prBenchRecord] ∧
    get_personal_records dbBench 1 none nowW 0 1 =
      Except.ok (PersonalRecordsResponse.mk
        (([prBenchRecord].drop (0 * 1)).take 1) [prBenchRecord].length) ∧
    ((List.range (([prBenchRecord].length + 1 - 1) / 1)).map (fun p =>
      ([prBenchRecord].drop (p * 1)).take 1)).flatten = [prBenchRecord] := by
  have h := get_personal_records_pagination dbBench 1 none nowW 1
    (by decide) (by decide) [prBenchRecord] (by decide)
  exact ⟨by decide, by decide, by decide, h.1, h.2.1 0, h.2.2⟩

theorem pyVolumeSum_nonneg (sets : List WorkoutSet)
    (hw : ∀ st ∈ sets, ∀ w : ℚ, st.weight = some w → 0 ≤ w)
    (hr : ∀ st ∈ sets, ∀ n : Int, st.reps_completed = some n → 0 ≤ n) :
    0 ≤ pyVolumeSum sets := by
  rw [pyVolumeSum]
  apply List.sum_nonneg
  intro x hx
  rcases List.mem_map.mp hx with ⟨st, hst, rfl⟩
  have hstmem : st ∈ sets := List.mem_of_mem_filter hst
  rw [setVolumeTerm]
  apply mul_nonneg
  · cases hwv : st.weight with
    | none => simp
    | some w => simpa [hwv] using hw st hstmem w hwv
  · cases hrv : st.reps_completed with
    | none => simp
    | some n =>
        have hn := hr st hstmem n hrv
        simp only [hrv, Option.getD_some]
        exact_mod_cast hn

theorem muscleAggregates_volume_nonneg (db : DB)
    (sessions : List WorkoutSession)
    (hw : ∀ st ∈ db.sets, ∀ w : ℚ, st.weight = some w → 0 ≤ w)
    (hr : ∀ st ∈ db.sets, ∀ n : Int, st.reps_completed = some n → 0 ≤ n) :
    ∀ a ∈ muscleAggregates db sessions, 0 ≤ a.2.1 := by
  intro a ha
  rw [muscleAggregates] at ha
  rcases List.mem_map.mp ha with ⟨kg, hkg, rfl⟩
  dsimp only
  apply List.sum_nonneg
  intro x hx
  rcases List.mem_map.mp hx with ⟨p, hp, rfl⟩
  apply pyVolumeSum_nonneg
  · intro st hst w hwv
    exact hw st (List.mem_of_mem_filter hst) w hwv
  · intro st hst n hrv
    exact hr st (List.mem_of_mem_filter hst) n hrv

theorem pyMaxValsD_mem (d : ℚ) (l : List ℚ) (h : l ≠ []) :
    pyMaxValsD d l ∈ l := by
  cases l with
  | nil => exact absurd rfl h
  | cons v vs => exact pyMaxKey_mem (fun x : ℚ => x) v vs

theorem le_pyMaxValsD (d : ℚ) (l : List ℚ) :
    ∀ v ∈ l, v ≤ pyMaxValsD d l := by
  cases l with
  | nil =>
      intro v hv
      cases hv
  | cons v vs =>
      intro x hx
      exact le_pyMaxKey (fun x : ℚ => x) v vs x hx

/-- C7 counterexample: the API accepts a stored negative weight (the set
schema has no lower bound), and with chest volume 100 and back volume -50
the code reports a back `activity_level` of -1/2, outside `[0, 1]`; so the
claim as stated fails on a reachable snapshot. -/
theorem get_muscle_group_stats_out_of_range :
    (get_muscle_group_stats dbNegWeight 1 none nowW).toOption.map
      (fun r => r.muscle_groups.map (fun a =>
        (a.muscle_group, a.volume, a.activity_level))) =
      some [("chest", 100, 1), ("back", -50, -(1 / 2))] ∧
    ¬(0 ≤ (-(1 / 2) : ℚ) ∧ (-(1 / 2) : ℚ) ≤ 1) := by
  constructor
  · decide
  · decide

/-- C7 amended: provided every stored weight and rep count is
non-negative (as any physically meaningful log satisfies), every
`activity_level` lies in `[0, 1]`; whenever some group has positive
volume, each maximum-volume group has `activity_level` exactly 1 and
every group's level equals its volume divided by that maximum volume; and
the list is sorted by `activity_level` descending. -/
theorem get_muscle_group_stats_activity (db : DB) (user : Nat)
    (filt : Option StatsTimeRangeFilter) (now : PyDateTime)
    (hw : ∀ st ∈ db.sets, ∀ w : ℚ, st.weight = some w → 0 ≤ w)
    (hr : ∀ st ∈ db.sets, ∀ n : Int, st.reps_completed = some n → 0 ≤ n)
    (res : MuscleGroupStats)
    (hres : get_muscle_group_stats db user filt now = Except.ok res) :
    (∀ a ∈ res.muscle_groups, 0 ≤ a.activity_level ∧ a.activity_level ≤ 1) ∧
    ((∃ b ∈ res.muscle_groups, 0 < b.volume) →
      ∀ a ∈ res.muscle_groups,
        (∀ c ∈ res.muscle_groups, c.volume ≤ a.volume) →
        a.activity_level = 1 ∧
        ∀ c ∈ res.muscle_groups,
          c.activity_level = c.volume / a.volume) ∧
    res.muscle_groups.Pairwise (fun a b =>
      b.activity_level ≤ a.activity_level) := by
  cases hS : completedSessions db user filt now with
  | nil =>
      simp only [get_muscle_group_stats, hS] at hres
      cases hres
      refine ⟨?_, ?_, ?_⟩
      · intro a ha
        cases ha
      · rintro ⟨b, hb, -⟩
        cases hb
      · exact List.Pairwise.nil
  | cons s0 srest =>
      simp only [get_muscle_group_stats, hS] at hres
      cases hmin : pyMinDatesE ((s0 :: srest).filterMap
          (fun s => s.started_at)) with
      | error e => rw [hmin] at hres; cases hres
      | ok ds =>
          rw [hmin] at hres
          cases hmax : pyMaxDatesE ((s0 :: srest).filterMap
              (fun s => s.completed_at)) with
          | error e => rw [hmax] at hres; cases hres
          | ok de =>
              rw [hmax] at hres
              cases hres
              dsimp only
              set aggs := muscleAggregates db (s0 :: srest) with haggs
              set M := pyMaxValsD 1 (aggs.map (fun a => a.2.1)) with hM
              set mkAct := fun a : String × ℚ × Nat × Option PyDateTime =>
                MuscleGroupActivity.mk a.1 a.2.1 a.2.2.1
                  (if 0 < M then a.2.1 / M else 0) a.2.2.2
                  (a.2.2.2.map (recoveryStatus now)) with hmkAct
              set sortLe := fun x y : MuscleGroupActivity =>
                decide (y.activity_level ≤ x.activity_level) with hsortLe
              have hperm : (pySort sortLe (aggs.map mkAct)).Perm
                  (aggs.map mkAct) := pySort_perm _ _
              have hvol : ∀ a ∈ aggs, (0 : ℚ) ≤ a.2.1 :=
                muscleAggregates_volume_nonneg db (s0 :: srest) hw hr
              have hshape : ∀ act ∈ pySort sortLe (aggs.map mkAct),
                  ∃ a ∈ aggs, act = mkAct a := by
                intro act hact
                rcases List.mem_map.mp (hperm.mem_iff.mp hact) with
                  ⟨a, ha, he⟩
                exact ⟨a, ha, he.symm⟩
              have hMax : ∀ a ∈ aggs, a.2.1 ≤ M := by
                intro a ha
                exact le_pyMaxValsD 1 _ _ (List.mem_map_of_mem _ ha)
              refine ⟨?_, ?_, ?_⟩
              · intro act hact
                rcases hshape act hact with ⟨a, ha, rfl⟩
                rw [hmkAct]
                dsimp only
                by_cases hMpos : 0 < M
                · rw [if_pos hMpos]
                  constructor
                  · exact div_nonneg (hvol a ha) (le_of_lt hMpos)
                  · exact (div_le_one hMpos).mpr (hMax a ha)
                · rw [if_neg hMpos]
                  exact ⟨le_rfl, zero_le_one⟩
              · rintro ⟨b, hb, hbpos⟩ act hact hmaxvol
                rcases hshape b hb with ⟨ab, hab, rfl⟩
                rcases hshape act hact with ⟨aa, haa, rfl⟩
                have hbvol : (mkAct ab).volume = ab.2.1 := rfl
                have hMpos : 0 < M :=
                  lt_of_lt_of_le (by simpa [hmkAct] using hbpos) (hMax ab hab)
                have haggsne : aggs.map (fun a => a.2.1) ≠ [] := by
                  intro hnil
                  have : ab.2.1 ∈ aggs.map (fun a => a.2.1) :=
                    List.mem_map_of_mem _ hab
                  rw [hnil] at this
                  cases this
                have hMmem : M ∈ aggs.map (fun a => a.2.1) :=
                  pyMaxValsD_mem 1 _ haggsne
                rcases List.mem_map.mp hMmem with ⟨aM, haM, haMeq⟩
                have hMact : mkAct aM ∈ pySort sortLe (aggs.map mkAct) :=
                  hperm.mem_iff.mpr (List.mem_map_of_mem _ haM)
                have hMle : (mkAct aM).volume ≤ (mkAct aa).volume :=
                  hmaxvol _ hMact
                have hvols : (mkAct aM).volume = aM.2.1 := rfl
                have hvola : (mkAct aa).volume = aa.2.1 := rfl
                have haaM : aa.2.1 = M := by
                  apply le_antisymm (hMax aa haa)
                  rw [← haMeq]
                  rw [hvols, hvola] at hMle
                  exact hMle
                constructor
                · show (if 0 < M then aa.2.1 / M else 0) = 1
                  rw [if_pos hMpos, haaM]
                  exact div_self (ne_of_gt hMpos)
                · intro c hc
                  rcases hshape c hc with ⟨ac, hac, rfl⟩
                  show (if 0 < M then ac.2.1 / M else 0) = ac.2.1 / aa.2.1
                  rw [if_pos hMpos, haaM]
              · have hp := pySort_pairwise sortLe
                  (fun x y => by
                    rcases le_total y.activity_level x.activity_level with
                      h | h
                    · exact Or.inl (by rw [hsortLe]; exact decide_eq_true h)
                    · exact Or.inr (by rw [hsortLe]; exact decide_eq_true h))
                  (fun x y z hxy hyz => by
                    rw [hsortLe] at hxy hyz ⊢
                    exact decide_eq_true (le_trans (of_decide_eq_true hyz)
                      (of_decide_eq_true hxy)))
                  (aggs.map mkAct)
                exact hp.imp (fun h => by
                  rw [hsortLe] at h
                  exact of_decide_eq_true h)

/-- Concrete instantiation of `get_muscle_group_stats_activity` on
`dbBench`, whose weights and reps are all non-negative. -/
theorem get_muscle_group_stats_activity_witness :
    (∀ st ∈ dbBench.sets, ∀ w : ℚ, st.weight = some w → 0 ≤ w) ∧
    (∀ st ∈ dbBench.sets, ∀ n : Int, st.reps_completed = some n → 0 ≤ n) ∧
    get_muscle_group_stats dbBench 1 none nowW =
      Except.ok muscleBenchStats ∧
    (∀ a ∈ muscleBenchStats.muscle_groups,
      0 ≤ a.activity_level ∧ a.activity_level ≤ 1) ∧
    muscleBenchStats.muscle_groups.Pairwise (fun a b =>
      b.activity_level ≤ a.activity_level) := by
  have h := get_muscle_group_stats_activity dbBench 1 none nowW (by decide)
    (by decide) muscleBenchStats (by decide)
  exact ⟨by decide, by decide, by decide, h.1, h.2.2⟩

/-- C9: for a valid metric and period, the trend series is a permutation
of one point per distinct bucket key realized by the completed sessions in
range (calendar day, Monday-anchored week start, or first of month of
`completed_at`), each point dated at the bucket start with value the
bucket's summed valid volume, summed `active_duration` in minutes, or
session count; the point dates are pairwise distinct (exactly one point
per non-empty bucket, no zero-filled gaps) and the series is sorted
ascending by bucket start date. -/
theorem get_workout_trends_buckets (db : DB) (user : Nat)
    (filt : Option StatsTimeRangeFilter) (now : PyDateTime)
    (metric period : String)
    (hm : metric = "volume" ∨ metric = "duration" ∨ metric = "frequency")
    (hp : period = "daily" ∨ period = "weekly" ∨ period = "monthly") :
    (get_workout_trends db user filt now metric period).data.Perm
      ((firstDedup ((completedSessions db user filt now).map (fun s =>
          trendBucketKey period (s.completed_at.getD pyDateTimeMin)))).map
        (fun k => TrendPoint.mk ⟨k, 0⟩ (trendValueSpec db metric
          ((completedSessions db user filt now).filter (fun s =>
            decide (trendBucketKey period
              (s.completed_at.getD pyDateTimeMin) = k)))))) ∧
    ((get_workout_trends db user filt now metric period).data.map
      TrendPoint.date).Nodup ∧
    (get_workout_trends db user filt now metric period).data.Pairwise
      (fun a b => a.date.stamp ≤ b.date.stamp) := by
  have hbv : ∀ gs : List WorkoutSession,
      bucketValue db metric gs = some (trendValueSpec db metric gs) := by
    intro gs
    rcases hm with rfl | rfl | rfl <;>
      simp [bucketValue, trendValueSpec]
  have hkey : ∀ T : WorkoutTrends,
      (T.data.map TrendPoint.date).Nodup →
      T.data.Pairwise (fun a b => a.date.stamp ≤ b.date.stamp) → True :=
    fun _ _ _ => trivial
  cases hS : completedSessions db user filt now with
  | nil =>
      simp only [get_workout_trends, hS]
      exact ⟨List.Perm.refl _, List.nodup_nil, List.Pairwise.nil⟩
  | cons s0 srest =>
      simp only [get_workout_trends, hS]
      rw [if_pos hp]
      set key := fun s : WorkoutSession =>
        trendBucketKey period (s.completed_at.getD pyDateTimeMin) with hk
      have hfun : (fun kg : Int × List WorkoutSession =>
          (bucketValue db metric kg.2).map (fun v =>
            TrendPoint.mk ⟨kg.1, 0⟩ v)) =
          (fun kg => some (TrendPoint.mk ⟨kg.1, 0⟩
            (trendValueSpec db metric kg.2))) := by
        funext kg
        rw [hbv kg.2]
        rfl
      have hpts : (groupPairs key (s0 :: srest)).filterMap
          (fun kg => (bucketValue db metric kg.2).map (fun v =>
            TrendPoint.mk ⟨kg.1, 0⟩ v)) =
          (firstDedup ((s0 :: srest).map key)).map (fun k =>
            TrendPoint.mk ⟨k, 0⟩ (trendValueSpec db metric
              ((s0 :: srest).filter (fun s => decide (key s = k))))) := by
        rw [hfun, groupPairs_eq, List.filterMap_map]
        have hcomp : ((fun kg : Int × List WorkoutSession =>
            some (TrendPoint.mk ⟨kg.1, 0⟩ (trendValueSpec db metric kg.2))) ∘
            (fun k => (k, (s0 :: srest).filter (fun s =>
              decide (key s = k))))) =
            (some ∘ (fun k => TrendPoint.mk ⟨k, 0⟩ (trendValueSpec db metric
              ((s0 :: srest).filter (fun s => decide (key s = k)))))) := rfl
        rw [hcomp, List.filterMap_eq_map]
      rw [hpts]
      refine ⟨pySort_perm _ _, ?_, ?_⟩
      · have hmapdate : ((pySort (fun a b => PyDateTime.leb a.date b.date)
            ((firstDedup ((s0 :: srest).map key)).map (fun k =>
              TrendPoint.mk ⟨k, 0⟩ (trendValueSpec db metric
                ((s0 :: srest).filter (fun s =>
                  decide (key s = k))))))).map TrendPoint.date).Perm
            (((firstDedup ((s0 :: srest).map key)).map (fun k =>
              TrendPoint.mk ⟨k, 0⟩ (trendValueSpec db metric
                ((s0 :: srest).filter (fun s =>
                  decide (key s = k)))))).map TrendPoint.date) :=
          List.Perm.map _ (pySort_perm _ _)
        apply hmapdate.nodup_iff.mpr
        rw [List.map_map]
        have : (TrendPoint.date ∘ fun k =>
            TrendPoint.mk ⟨k, 0⟩ (trendValueSpec db metric
              ((s0 :: srest).filter (fun s => decide (key s = k))))) =
            fun k => PyDateTime.mk k 0 := rfl
        rw [this]
        apply List.Nodup.map
        · intro a b he
          exact congrArg PyDateTime.ord he
        · exact firstDedup_nodup _
      · have hp2 := pySort_pairwise
          (fun a b : TrendPoint => PyDateTime.leb a.date b.date)
          (fun x y => by
            simp only [PyDateTime.leb]
            rcases le_total x.date.stamp y.date.stamp with h | h
            · exact Or.inl (decide_eq_true h)
            · exact Or.inr (decide_eq_true h))
          (fun x y z hxy hyz => by
            simp only [PyDateTime.leb] at hxy hyz ⊢
            exact decide_eq_true (le_trans (of_decide_eq_true hxy)
              (of_decide_eq_true hyz)))
          ((firstDedup ((s0 :: srest).map key)).map (fun k =>
            TrendPoint.mk ⟨k, 0⟩ (trendValueSpec db metric
              ((s0 :: srest).filter (fun s => decide (key s = k))))))
        exact hp2.imp (fun h => by
          simp only [PyDateTime.leb] at h
          exact of_decide_eq_true h)

/-- Concrete instantiation of `get_workout_trends_buckets`: daily volume
buckets of `dbTwoSessions`. -/
theorem get_workout_trends_buckets_witness :
    (get_workout_trends dbTwoSessions 1 none nowW "volume" "daily").data.Perm
      ((firstDedup ((completedSessions dbTwoSessions 1 none nowW).map
          (fun s => trendBucketKey "daily"
            (s.completed_at.getD pyDateTimeMin)))).map
        (fun k => TrendPoint.mk ⟨k, 0⟩ (trendValueSpec dbTwoSessions "volume"
          ((completedSessions dbTwoSessions 1 none nowW).filter (fun s =>
            decide (trendBucketKey "daily"
              (s.completed_at.getD pyDateTimeMin) = k)))))) ∧
    ((get_workout_trends dbTwoSessions 1 none nowW "volume" "daily").data.map
      TrendPoint.date).Nodup ∧
    (get_workout_trends dbTwoSessions 1 none nowW "volume" "daily").data.Pairwise
      (fun a b => a.date.stamp ≤ b.date.stamp) :=
  get_workout_trends_buckets dbTwoSessions 1 none nowW "volume" "daily"
    (Or.inl rfl) (Or.inl rfl)

theorem setRows_mem (db : DB) (r : SetRow) (h : r ∈ setRows db) :
    r.set ∈ db.sets ∧ r.session ∈ db.sessions := by
  rw [setRows] at h
  rcases List.mem_filterMap.mp h with ⟨st, hst, hmap⟩
  rcases Option.bind_eq_some.mp hmap with ⟨se, hse, hmap2⟩
  rcases Option.map_eq_some'.mp hmap2 with ⟨s, hs, hr⟩
  subst hr
  exact ⟨hst, List.mem_of_find?_eq_some hs⟩

theorem exerciseSetRows_user (db : DB) (user exid : Nat)
    (filt : Option StatsTimeRangeFilter) (now : PyDateTime) (r : SetRow)
    (h : r ∈ exerciseSetRowsUnsorted db user exid filt now) :
    r ∈ setRows db ∧ r.session.user_id = user := by
  rcases List.mem_filter.mp h with ⟨h1, h2⟩
  simp only [Bool.and_eq_true, decide_eq_true_eq] at h2
  exact ⟨h1, h2.1.1.1⟩

/-- C5: the exercise-progress aggregator signals `NotFound` exactly when
the referenced exercise id does not exist; the other four aggregators
absorb the degenerate conditions in the claim — an empty history, sessions
none of which are completed, and all-null weights (given the invariant
that every stored session has a `started_at`, which session creation
always sets) — returning empty collections or zero totals instead of
raising. -/
theorem stats_error_contract :
    (∀ (db : DB) (user exid : Nat) (filt : Option StatsTimeRangeFilter)
        (now : PyDateTime),
      get_exercise_progress db user exid filt now =
          Except.error PyErr.notFound ↔
        findExercise db exid = none) ∧
    (∀ (db : DB) (user : Nat) (filt : Option StatsTimeRangeFilter)
        (now : PyDateTime) (metric period : String) (page limit : Nat),
      (∀ s ∈ db.sessions, s.user_id ≠ user) →
        get_muscle_group_stats db user filt now =
          Except.ok (MuscleGroupStats.mk now now []) ∧
        get_personal_records db user filt now page limit =
          Except.ok (PersonalRecordsResponse.mk [] 0) ∧
        get_workout_overview db user filt now = zeroOverview ∧
        get_workout_trends db user filt now metric period =
          WorkoutTrends.mk metric period []) ∧
    (∀ (db : DB) (user : Nat) (filt : Option StatsTimeRangeFilter)
        (now : PyDateTime) (metric period : String) (page limit : Nat),
      (∀ s ∈ db.sessions, s.user_id = user → s.completed_at = none) →
        get_muscle_group_stats db user filt now =
          Except.ok (MuscleGroupStats.mk now now []) ∧
        get_personal_records db user filt now page limit =
          Except.ok (PersonalRecordsResponse.mk [] 0) ∧
        get_workout_overview db user filt now = zeroOverview ∧
        get_workout_trends db user filt now metric period =
          WorkoutTrends.mk metric period []) ∧
    (∀ (db : DB) (user : Nat) (filt : Option StatsTimeRangeFilter)
        (now : PyDateTime) (page limit : Nat),
      (∀ st ∈ db.sets, st.weight = none) →
      (∀ s ∈ db.sessions, s.started_at.isSome = true) →
        get_personal_records db user filt now page limit =
          Except.ok (PersonalRecordsResponse.mk [] 0) ∧
        ∃ stats, get_muscle_group_stats db user filt now =
          Except.ok stats) := by
  have prEmpty : ∀ (db : DB) (user : Nat) (filt : Option StatsTimeRangeFilter)
      (now : PyDateTime) (page limit : Nat),
      prAllRecords db user filt now = Except.ok [] →
      get_personal_records db user filt now page limit =
        Except.ok (PersonalRecordsResponse.mk [] 0) := by
    intro db user filt now page limit hall
    rw [get_personal_records]
    by_cases hemp : (userExercises db user).isEmpty = true
    · rw [if_pos hemp]
    · rw [if_neg hemp, prSortedRecords, hall]
      simp [prSortDesc, pySort]
  refine ⟨?_, ?_, ?_, ?_⟩
  · intro db user exid filt now
    constructor
    · intro h
      cases hfe : findExercise db exid with
      | none => rfl
      | some e =>
          exfalso
          simp only [get_exercise_progress, hfe] at h
          cases hrows : progressRows db user exid filt now with
          | nil => rw [hrows] at h; cases h
          | cons r0 rs =>
              rw [hrows] at h
              dsimp only at h
              cases hbest : bestOneRepMax (r0 :: rs) with
              | error er =>
                  rw [hbest] at h
                  cases h
                  cases bestOneRepMax_error (r0 :: rs) _ hbest
              | ok best => rw [hbest] at h; cases h
    · intro h
      rw [get_exercise_progress, h]
  · intro db user filt now metric period page limit hne
    have hcs : completedSessions db user filt now = [] := by
      rw [completedSessions, List.filter_eq_nil_iff]
      intro s hs
      simp [hne s hs]
    have hos : overviewSessions db user filt now = [] := by
      rw [overviewSessions, List.filter_eq_nil_iff]
      intro s hs
      simp [hne s hs]
    have hue : userExercises db user = [] := by
      rw [userExercises, List.filter_eq_nil_iff]
      intro e he
      simp only [List.any_eq_true, Bool.and_eq_true, decide_eq_true_eq,
        not_exists, not_and]
      intro se hse hex hmatch
      cases hfind : findSession db se.workout_session_id with
      | none => rw [hfind] at hmatch; cases hmatch
      | some s =>
          rw [hfind] at hmatch
          exact hne s (List.mem_of_find?_eq_some hfind)
            (of_decide_eq_true hmatch)
    refine ⟨by simp [get_muscle_group_stats, hcs], ?_,
      overview_zero_of_nil db user filt now hos,
      by simp [get_workout_trends, hcs]⟩
    apply prEmpty
    rw [prAllRecords, hue]
    rfl
  · intro db user filt now metric period page limit hunc
    have hcs : completedSessions db user filt now = [] := by
      rw [completedSessions, List.filter_eq_nil_iff]
      intro s hs
      by_cases hu : s.user_id = user
      · simp [hu, hunc s hs hu]
      · simp [hu]
    have hov : ∀ s ∈ overviewSessions db user filt now,
        s.completed_at = none := by
      intro s hs
      rcases List.mem_filter.mp hs with ⟨hs1, hs2⟩
      simp only [Bool.and_eq_true, decide_eq_true_eq] at hs2
      exact hunc s hs1 hs2.1
    refine ⟨by simp [get_muscle_group_stats, hcs], ?_,
      overview_zero_of_uncompleted db user filt now hov,
      by simp [get_workout_trends, hcs]⟩
    apply prEmpty
    apply collectE_all_nil
    intro e he
    apply collectE_all_nil
    intro kg hkg
    rcases groupPairs_mem _ _ _ _ hkg with ⟨hkmem, hfil⟩
    cases hg2 : kg.2 with
    | nil => rw [recordForGroup]
    | cons q qs =>
        have hpr : pyMaxKey (fun x => wKey x.set) q qs ∈ q :: qs :=
          pyMaxKey_mem _ q qs
        rw [← hg2, hfil] at hpr
        have hpr2 : pyMaxKey (fun x => wKey x.set) q qs ∈
            prQualRows db user e.id filt now :=
          List.mem_of_mem_filter hpr
        have hpr3 : pyMaxKey (fun x => wKey x.set) q qs ∈
            exerciseSetRowsUnsorted db user e.id filt now :=
          List.mem_of_mem_filter hpr2
        rcases exerciseSetRows_user db user e.id filt now _ hpr3 with
          ⟨hrow, huser⟩
        rcases setRows_mem db _ hrow with ⟨-, hsess⟩
        have hnone : (pyMaxKey (fun x => wKey x.set) q qs).session.completed_at
            = none := hunc _ hsess huser
        rw [recordForGroup, hnone]
  · intro db user filt now page limit hnw hstart
    constructor
    · apply prEmpty
      apply collectE_all_nil
      intro e he
      have hqr : prQualRows db user e.id filt now = [] := by
        rw [prQualRows, List.filter_eq_nil_iff]
        intro r hr
        rcases exerciseSetRows_user db user e.id filt now r hr with ⟨hrow, -⟩
        rcases setRows_mem db r hrow with ⟨hset, -⟩
        simp [truthyQ, hnw r.set hset]
      rw [prRecordsFor, hqr]
      rfl
    · cases hS : completedSessions db user filt now with
      | nil => exact ⟨MuscleGroupStats.mk now now [],
          by simp [get_muscle_group_stats, hS]⟩
      | cons s0 srest =>
          have hs0m : s0 ∈ completedSessions db user filt now := by
            rw [hS]
            exact List.mem_cons_self s0 srest
          have hs0db : s0 ∈ db.sessions := List.mem_of_mem_filter hs0m
          have hs0c : s0.completed_at.isSome = true := by
            rcases List.mem_filter.mp hs0m with ⟨-, hp⟩
            simp only [Bool.and_eq_true] at hp
            exact hp.1.2
          cases hst : s0.started_at with
          | none =>
              exfalso
              have := hstart s0 hs0db
              rw [hst] at this
              cases this
          | some t =>
              cases hct : s0.completed_at with
              | none =>
                  exfalso
                  rw [hct] at hs0c
                  cases hs0c
              | some c =>
                  have hl1 : (s0 :: srest).filterMap
                      (fun s => s.started_at) =
                      t :: srest.filterMap (fun s => s.started_at) := by
                    simp [hst]
                  have hl2 : (s0 :: srest).filterMap
                      (fun s => s.completed_at) =
                      c :: srest.filterMap (fun s => s.completed_at) := by
                    simp [hct]
                  simp only [get_muscle_group_stats, hS, hl1, hl2]
                  exact ⟨_, rfl⟩

/-- Concrete instantiation of `stats_error_contract`: a missing exercise
id signals `NotFound`; a user with no sessions, a user with only an
uncompleted session, and a log with only NULL weights all get empty or
zero results without an error. -/
theorem stats_error_contract_witness :
    get_exercise_progress dbEmpty 1 5 none nowW =
      Except.error PyErr.notFound ∧
    (get_muscle_group_stats dbBench 2 none nowW =
        Except.ok (MuscleGroupStats.mk nowW nowW []) ∧
      get_personal_records dbBench 2 none nowW 0 10 =
        Except.ok (PersonalRecordsResponse.mk [] 0) ∧
      get_workout_overview dbBench 2 none nowW = zeroOverview ∧
      get_workout_trends dbBench 2 none nowW "volume" "weekly" =
        WorkoutTrends.mk "volume" "weekly" []) ∧
    (get_muscle_group_stats dbUncompleted 1 none nowW =
        Except.ok (MuscleGroupStats.mk nowW nowW []) ∧
      get_personal_records dbUncompleted 1 none nowW 0 10 =
        Except.ok (PersonalRecordsResponse.mk [] 0) ∧
      get_workout_overview dbUncompleted 1 none nowW = zeroOverview ∧
      get_workout_trends dbUncompleted 1 none nowW "duration" "daily" =
        WorkoutTrends.mk "duration" "daily" []) ∧
    (get_personal_records dbNullWeight 1 none nowW 0 10 =
        Except.ok (PersonalRecordsResponse.mk [] 0) ∧
      ∃ stats, get_muscle_group_stats dbNullWeight 1 none nowW =
        Except.ok stats) :=
  ⟨(stats_error_contract.1 dbEmpty 1 5 none nowW).mpr (by decide),
   stats_error_contract.2.1 dbBench 2 none nowW "volume" "weekly" 0 10
     (by decide),
   stats_error_contract.2.2.1 dbUncompleted 1 none nowW "duration" "daily"
     0 10 (by decide),
   stats_error_contract.2.2.2 dbNullWeight 1 none nowW 0 10 (by decide)
     (by decide)⟩

end WeightliftingStats
